import Mathlib

/-!
# Verification of the Banking-Ledger transactional core

A shallow embedding, in Lean 4, of the transactional ledger core of the
Banking-Ledger-System repository (TypeScript/MongoDB), together with proofs
and refutations of the specification claims about it.

The embedding covers:

* the mongoose `TransactionSchema.entries` validators
  (`src/models/transaction.model.ts`), including an exact model of the
  IEEE-754 binary64 arithmetic performed by the validator's
  `parseFloat`/`+` reduction;
* the `TransactionService` operations `createDeposit`, `createWithdrawal`,
  `createTransfer`, `createFee`, `reverseTransaction` and
  `processPendingTransactions`, and the `getSystemAccount` router;
* the `validateAccountNumber` input validator (`src/utils/validators.ts`).

Monetary amounts are modelled as exact rationals (`ℚ`): the source stores
them as `Decimal128`/`decimal.js` arbitrary-precision decimals, whose
additions and subtractions on ledger-sized amounts are exact.  MongoDB
session semantics are modelled by making every operation a pure function
from a `LedgerState` to `Except`: an aborted session is an `error` result
carrying no state.  Random identifier generation (`generateTransactionId`,
`generateAccountNumber`) is modelled by passing the fresh identifier as an
argument.
-/

attribute [local semireducible] Rat.add Rat.mul Rat.inv Rat.sub Rat.ofScientific

set_option maxRecDepth 8000

namespace BankLedger

/-! ## An exact model of IEEE-754 binary64 rounding

The mongoose balance validator computes
`entries.reduce((acc, e) => acc + (e.entryType === DEBIT ? parseFloat(a) : -parseFloat(a)), 0)`
on JavaScript `number`s, i.e. IEEE-754 binary64 values.  Every binary64
value in the normal range is an exact rational, so binary64 rounding is a
function `ℚ → ℚ`; we define it exactly (round to nearest, ties to even) and
keep it executable so the kernel can evaluate it on concrete inputs.
Subnormals and overflow are outside the range of ledger amounts and are not
modelled. -/

/-- Fuel-driven binary logarithm on naturals (structural recursion so that
the kernel can evaluate it): `log2F fuel n = ⌊log₂ n⌋` whenever `n ≤ fuel`
and `1 ≤ n`. -/
def log2F : Nat → Nat → Nat
  | 0, _ => 0
  | fuel + 1, n => if 2 ≤ n then log2F fuel (n / 2) + 1 else 0

/-- `⌊log₂ n⌋` for a natural `n ≥ 1`. -/
def natLog2 (n : Nat) : Nat := log2F n n

/-- Floor of the binary logarithm of a positive rational: the unique `e`
with `2 ^ e ≤ q < 2 ^ (e + 1)`. -/
def floorLog2 (q : ℚ) : ℤ :=
  let c : ℤ := (natLog2 q.num.natAbs : ℤ) - (natLog2 q.den : ℤ)
  if (2 : ℚ) ^ (c + 1) ≤ q then c + 1
  else if (2 : ℚ) ^ c ≤ q then c
  else c - 1

/-- Round a rational to the nearest integer, ties to even (the IEEE-754
default rounding direction). -/
def rhne (x : ℚ) : ℤ :=
  if x - ⌊x⌋ < 1 / 2 then ⌊x⌋
  else if 1 / 2 < x - ⌊x⌋ then ⌊x⌋ + 1
  else if ⌊x⌋ % 2 = 0 then ⌊x⌋ else ⌊x⌋ + 1

/-- Round a positive rational to its nearest IEEE binary64 value
(normal range, round to nearest, ties to even). -/
def flPos (q : ℚ) : ℚ :=
  (rhne (q / (2 : ℚ) ^ (floorLog2 q - 52))) * (2 : ℚ) ^ (floorLog2 q - 52)

/-- The IEEE binary64 value nearest to `q`, as an exact rational.  This is
what JavaScript `parseFloat` produces on the exact decimal string of `q`,
and what a JavaScript `number` holds after an arithmetic operation with
exact result `q`. -/
def fl (q : ℚ) : ℚ :=
  if q = 0 then 0
  else if q < 0 then -flPos (-q) else flPos q

/-! ## Data model

Embedded from `src/interfaces/transaction.interface.ts`,
`src/models/transaction.model.ts`, `src/models/account.model.ts` and
`src/models/accountBalance.model.ts`.  MongoDB `ObjectId`s are modelled as
`Nat`, user ids and account numbers as `String`, currencies as `String`
(only equality of currency codes is ever used by the core), monetary
amounts as exact rationals. -/

/-- `EntryType` from `transaction.interface.ts`. -/
inductive EntryType where
  | DEBIT
  | CREDIT

deriving DecidableEq, Repr

/-- `TransactionType` from `transaction.interface.ts`. -/
inductive TransactionType where
  | DEPOSIT
  | WITHDRAWAL
  | TRANSFER
  | PAYMENT
  | FEE
  | INTEREST
  | ADJUSTMENT
  | REVERSAL
  | REFUND

deriving DecidableEq, Repr

/-- `TransactionStatus` from `transaction.interface.ts`. -/
inductive TransactionStatus where
  | PENDING
  | PROCESSING
  | COMPLETED
  | FAILED
  | CANCELLED

deriving DecidableEq, Repr

/-- A double-entry posting (`ITransactionEntry` / the mongoose `EntrySchema`). -/
structure Entry where
  accountId : Nat
  entryType : EntryType
  amount : ℚ

deriving DecidableEq, Repr

/-- A journal transaction (`ITransaction` / the mongoose `TransactionSchema`).
`originalTransactionId` models the `metadata` entry of that key written by
`reverseTransaction`; `createdAt` is a millisecond timestamp (only its order
relative to the sweep cutoff matters). -/
structure Transaction where
  transactionId : String
  transactionType : TransactionType
  userId : String
  entries : List Entry
  amount : ℚ
  currency : String
  fromAccount : Option String := none
  toAccount : Option String := none
  status : TransactionStatus
  reference : Option String := none
  originalTransactionId : Option String := none
  failureReason : Option String := none
  createdAt : Nat := 0

deriving DecidableEq, Repr

/-- An account (`IAccount` / the mongoose `AccountSchema`).  `purpose` models
the `metadata.purpose` entry used by `getSystemAccount` to locate system
accounts. -/
structure Account where
  id : Nat
  accountNumber : String
  userId : String
  accountType : String
  currency : String
  isActive : Bool
  purpose : Option String := none

deriving DecidableEq, Repr

/-- The persistent state the transaction service operates on: the account
collection, the balance collection (`AccountBalance`, keyed by account id)
and the transaction journal. -/
structure LedgerState where
  accounts : List Account
  balances : List (Nat × ℚ)
  journal : List Transaction

deriving DecidableEq, Repr

/-- The error taxonomy of `src/utils/errors.ts`, restricted to the kinds the
embedded operations can produce.  `insufficientFunds` carries the message and
the `{available, requested}` (for reversal and the sweep: `required`) detail
payload of `InsufficientFundsError`.  An `error` result models an aborted
MongoDB session: no state change persists. -/
inductive LedgerErr where
  | notFound (msg : String)
  | badRequest (msg : String)
  | insufficientFunds (msg : String) (available requested : ℚ)
  | conflict (msg : String)
  | transactionFailed (msg : String)

deriving DecidableEq, Repr

/-! ## The mongoose `entries` validators (`transaction.model.ts`)

The second validator computes
`entries.reduce((acc, e) => acc + (e.entryType === 'DEBIT' ? a : -a), 0)`
where `a = parseFloat(entry.amount.toString())`, i.e. with IEEE binary64
arithmetic; `fl` is applied to each parsed amount and after each addition. -/

/-- The signed summand the validator adds for one entry:
`parseFloat(amount)` for a DEBIT, `-parseFloat(amount)` for a CREDIT. -/
def entrySigned (e : Entry) : ℚ :=
  match e.entryType with
  | .DEBIT => fl e.amount
  | .CREDIT => -(fl e.amount)

/-- The JavaScript floating-point value of the validator's `reduce` over the
entries (accumulator starts at `0`; every addition rounds to binary64). -/
def jsEntrySum (es : List Entry) : ℚ :=
  es.foldl (fun acc e => fl (acc + entrySigned e)) 0

/-- The two `entries` validators of `TransactionSchema`: at least two
entries, and the floating-point debit-minus-credit reduction is exactly `0`. -/
def validEntries (es : List Entry) : Bool :=
  decide (2 ≤ es.length) && decide (jsEntrySum es = 0)

/-- What the journal store checks before inserting a transaction
(the schema validators; field presence and enum membership are enforced by
the Lean types). -/
def transactionInsertValid (t : Transaction) : Bool :=
  validEntries t.entries

/-! ## Exact-arithmetic ledger invariants (spec §3, T1 through T4)

These are stated from the specification text, over exact decimal
arithmetic, to be compared with what the code actually validates. -/

/-- T1, double-entry: at least two entries. -/
def TinvT1 (t : Transaction) : Prop := 2 ≤ t.entries.length

/-- Exact sum of the DEBIT entry amounts. -/
def sumDebits (es : List Entry) : ℚ :=
  es.foldr (fun e s => (match e.entryType with | .DEBIT => e.amount | .CREDIT => 0) + s) 0

/-- Exact sum of the CREDIT entry amounts. -/
def sumCredits (es : List Entry) : ℚ :=
  es.foldr (fun e s => (match e.entryType with | .CREDIT => e.amount | .DEBIT => 0) + s) 0

/-- T2, balance: exact debits equal exact credits. -/
def TinvT2 (t : Transaction) : Prop := sumDebits t.entries = sumCredits t.entries

/-- T3, single-currency: every entry references an account of the
transaction's declared currency. -/
def TinvT3 (st : LedgerState) (t : Transaction) : Prop :=
  ∀ e ∈ t.entries, ∃ a ∈ st.accounts, a.id = e.accountId ∧ a.currency = t.currency

/-- T4, declared amount: the transaction amount equals the common
debit/credit sum. -/
def TinvT4 (t : Transaction) : Prop :=
  t.amount = sumDebits t.entries ∧ t.amount = sumCredits t.entries

/-! ## Store primitives -/

/-- `AccountBalance.findOne({accountId})`: first balance row for an account. -/
def lookupBal (bs : List (Nat × ℚ)) (i : Nat) : Option ℚ :=
  (bs.find? (fun p => p.1 == i)).map Prod.snd

/-- Overwrite the balance rows of account `i` with amount `v`
(the committed effect of `accountBalance.save()` after mutation). -/
def setBal (bs : List (Nat × ℚ)) (i : Nat) (v : ℚ) : List (Nat × ℚ) :=
  bs.map (fun p => if p.1 == i then (p.1, v) else p)

/-- Total of all stored balances (customer and system accounts). -/
def totalBal (bs : List (Nat × ℚ)) : ℚ := (bs.map Prod.snd).sum

/-- `Account.findOne({accountNumber, isActive: true})`. -/
def findAccountActive (st : LedgerState) (num : String) : Option Account :=
  st.accounts.find? (fun a => a.accountNumber == num && a.isActive)

/-- A fresh `ObjectId` for a newly created system account. -/
def freshAccountId (st : LedgerState) : Nat :=
  (st.accounts.foldr (fun a m => max a.id m) 0) + 1

/-- `TransactionService.getSystemAccount`: find the SYSTEM account for
`(purpose, currency)`; if absent, create it (owned by the reserved system
user) with a zero balance row.  Returns the possibly-extended state and the
system account's id.  (The in-process id cache only short-circuits the
lookup and is not observable in the committed state.) -/
def getSystemAccount (st : LedgerState) (purpose currency : String) :
    LedgerState × Nat :=
  match st.accounts.find? (fun a =>
      a.accountType == "SYSTEM" && a.currency == currency && a.purpose == some purpose) with
  | some a => (st, a.id)
  | none =>
    let nid := freshAccountId st
    ({ st with
        accounts := st.accounts ++
          [{ id := nid, accountNumber := "SYS-" ++ toString nid,
             userId := "000000000000000000000001", accountType := "SYSTEM",
             currency := currency, isActive := true, purpose := some purpose }],
        balances := st.balances ++ [(nid, 0)] }, nid)

/-- Duplicate-`transactionId` test of the journal's unique index. -/
def txIdTaken (st : LedgerState) (txId : String) : Bool :=
  st.journal.any (fun t => t.transactionId == txId)

/-! ## The ledger operations (`TransactionService`, `src/unnamed/part_013`)

Each operation is a function from the committed pre-state to either an
error (the session aborted: nothing persists) or the committed post-state
plus the created transaction.  The freshly generated transaction id is an
explicit argument.  Checks appear in exactly the order the source performs
them. -/

/-- DTO of `createDeposit`. -/
structure DepositTransactionDTO where
  userId : String
  accountNumber : String
  amount : ℚ
  currency : String

/-- DTO of `createWithdrawal`. -/
structure WithdrawalTransactionDTO where
  userId : String
  accountNumber : String
  amount : ℚ
  currency : String

/-- DTO of `createTransfer`. -/
structure TransferTransactionDTO where
  userId : String
  fromAccountNumber : String
  toAccountNumber : String
  amount : ℚ
  currency : String

/-- DTO of `createFee`. -/
structure FeeTransactionDTO where
  userId : String
  accountNumber : String
  amount : ℚ
  currency : String

/-- DTO of `reverseTransaction`. -/
structure ReversalTransactionDTO where
  userId : String
  originalTransactionId : String
  reason : String

/-- `TransactionService.createDeposit`. -/
def createDeposit (st : LedgerState) (txId : String) (d : DepositTransactionDTO) :
    Except LedgerErr (LedgerState × Transaction) :=
  match findAccountActive st d.accountNumber with
  | none => .error (.notFound "Account not found or inactive")
  | some account =>
    if account.currency ≠ d.currency then
      .error (.badRequest ("Currency mismatch. Account is in " ++ account.currency ++
        ", but deposit is in " ++ d.currency))
    else
      match lookupBal st.balances account.id with
      | none => .error (.notFound "Account balance not found")
      | some currentBalance =>
        let stSys := (getSystemAccount st "DEPOSITS" d.currency).1
        let depositsAccountId := (getSystemAccount st "DEPOSITS" d.currency).2
        let entries : List Entry :=
          [⟨account.id, .CREDIT, d.amount⟩, ⟨depositsAccountId, .DEBIT, d.amount⟩]
        if ¬ validEntries entries then .error (.badRequest "Invalid transaction data")
        else if txIdTaken stSys txId then .error (.conflict "Duplicate transactionId")
        else
          let tx : Transaction :=
            { transactionId := txId, transactionType := .DEPOSIT, userId := d.userId,
              entries := entries, amount := d.amount, currency := d.currency,
              toAccount := some account.accountNumber, status := .COMPLETED,
              reference := some txId }
          .ok ({ stSys with
                  balances := setBal stSys.balances account.id (currentBalance + d.amount),
                  journal := tx :: stSys.journal }, tx)

/-- `TransactionService.createWithdrawal`. -/
def createWithdrawal (st : LedgerState) (txId : String) (d : WithdrawalTransactionDTO) :
    Except LedgerErr (LedgerState × Transaction) :=
  match findAccountActive st d.accountNumber with
  | none => .error (.notFound "Account not found or inactive")
  | some account =>
    if account.currency ≠ d.currency then
      .error (.badRequest ("Currency mismatch. Account is in " ++ account.currency ++
        ", but withdrawal is in " ++ d.currency))
    else
      match lookupBal st.balances account.id with
      | none => .error (.notFound "Account balance not found")
      | some currentBalance =>
        if currentBalance < d.amount then
          .error (.insufficientFunds "Insufficient funds for withdrawal"
            currentBalance d.amount)
        else
          let stSys := (getSystemAccount st "WITHDRAWALS" d.currency).1
          let withdrawalsAccountId := (getSystemAccount st "WITHDRAWALS" d.currency).2
          let entries : List Entry :=
            [⟨account.id, .DEBIT, d.amount⟩, ⟨withdrawalsAccountId, .CREDIT, d.amount⟩]
          if ¬ validEntries entries then .error (.badRequest "Invalid transaction data")
          else if txIdTaken stSys txId then .error (.conflict "Duplicate transactionId")
          else
            let tx : Transaction :=
              { transactionId := txId, transactionType := .WITHDRAWAL, userId := d.userId,
                entries := entries, amount := d.amount, currency := d.currency,
                fromAccount := some account.accountNumber, status := .COMPLETED,
                reference := some txId }
            .ok ({ stSys with
                    balances := setBal stSys.balances account.id (currentBalance - d.amount),
                    journal := tx :: stSys.journal }, tx)

/-- `TransactionService.createTransfer`. -/
def createTransfer (st : LedgerState) (txId : String) (d : TransferTransactionDTO) :
    Except LedgerErr (LedgerState × Transaction) :=
  if d.fromAccountNumber == d.toAccountNumber then
    .error (.badRequest "Source and destination accounts cannot be the same")
  else
    match findAccountActive st d.fromAccountNumber with
    | none => .error (.notFound "Source account not found or inactive")
    | some sourceAccount =>
      match findAccountActive st d.toAccountNumber with
      | none => .error (.notFound "Destination account not found or inactive")
      | some destinationAccount =>
        if sourceAccount.currency ≠ d.currency then
          .error (.badRequest ("Currency mismatch. Source account is in " ++
            sourceAccount.currency ++ ", but transfer is in " ++ d.currency))
        else if destinationAccount.currency ≠ d.currency then
          .error (.badRequest ("Currency mismatch. Destination account is in " ++
            destinationAccount.currency ++ ", but transfer is in " ++ d.currency))
        else if sourceAccount.userId ≠ d.userId then
          .error (.badRequest "You can only transfer from your own accounts")
        else
          match lookupBal st.balances sourceAccount.id with
          | none => .error (.notFound "Source account balance not found")
          | some sourceBalance =>
            match lookupBal st.balances destinationAccount.id with
            | none => .error (.notFound "Destination account balance not found")
            | some destBalance =>
              if sourceBalance < d.amount then
                .error (.insufficientFunds "Insufficient funds for transfer"
                  sourceBalance d.amount)
              else
                let entries : List Entry :=
                  [⟨sourceAccount.id, .DEBIT, d.amount⟩,
                   ⟨destinationAccount.id, .CREDIT, d.amount⟩]
                if ¬ validEntries entries then
                  .error (.badRequest "Invalid transaction data")
                else if txIdTaken st txId then .error (.conflict "Duplicate transactionId")
                else
                  let tx : Transaction :=
                    { transactionId := txId, transactionType := .TRANSFER,
                      userId := d.userId, entries := entries, amount := d.amount,
                      currency := d.currency,
                      fromAccount := some sourceAccount.accountNumber,
                      toAccount := some destinationAccount.accountNumber,
                      status := .COMPLETED, reference := some txId }
                  .ok ({ st with
                          balances :=
                            setBal (setBal st.balances sourceAccount.id
                                (sourceBalance - d.amount))
                              destinationAccount.id (destBalance + d.amount),
                          journal := tx :: st.journal }, tx)

/-- `TransactionService.createFee`. -/
def createFee (st : LedgerState) (txId : String) (d : FeeTransactionDTO) :
    Except LedgerErr (LedgerState × Transaction) :=
  match findAccountActive st d.accountNumber with
  | none => .error (.notFound "Account not found or inactive")
  | some account =>
    if account.currency ≠ d.currency then
      .error (.badRequest ("Currency mismatch. Account is in " ++ account.currency ++
        ", but fee is in " ++ d.currency))
    else
      match lookupBal st.balances account.id with
      | none => .error (.notFound "Account balance not found")
      | some currentBalance =>
        if currentBalance < d.amount then
          .error (.insufficientFunds "Insufficient funds for fee deduction"
            currentBalance d.amount)
        else
          let stSys := (getSystemAccount st "FEES" d.currency).1
          let feesAccountId := (getSystemAccount st "FEES" d.currency).2
          let entries : List Entry :=
            [⟨account.id, .DEBIT, d.amount⟩, ⟨feesAccountId, .CREDIT, d.amount⟩]
          if ¬ validEntries entries then .error (.badRequest "Invalid transaction data")
          else if txIdTaken stSys txId then .error (.conflict "Duplicate transactionId")
          else
            let tx : Transaction :=
              { transactionId := txId, transactionType := .FEE, userId := d.userId,
                entries := entries, amount := d.amount, currency := d.currency,
                fromAccount := some account.accountNumber, status := .COMPLETED,
                reference := some txId }
            .ok ({ stSys with
                    balances := setBal stSys.balances account.id (currentBalance - d.amount),
                    journal := tx :: stSys.journal }, tx)

/-- Flip the side of an entry (used to build a reversal's entries). -/
def flipEntry (e : Entry) : Entry :=
  { e with entryType := match e.entryType with | .DEBIT => .CREDIT | .CREDIT => .DEBIT }

/-- The per-entry balance-application loop shared by `reverseTransaction`
and `processPendingTransactions`: apply entries in order, reading and
writing the balance store; a CREDIT adds, a DEBIT subtracts and fails with
`InsufficientFundsError` (message `msg`) if the account would go negative;
a missing balance row fails with `NotFoundError`.  Returns the balance rows
**as mutated so far** together with the error, if any — the sweep keeps
those partial mutations, while `reverseTransaction` aborts its session and
discards them. -/
def applyEntriesLoop (msg : String) (bs : List (Nat × ℚ)) :
    List Entry → List (Nat × ℚ) × Option LedgerErr
  | [] => (bs, none)
  | e :: rest =>
    match lookupBal bs e.accountId with
    | none => (bs, some (.notFound ("Account balance not found for account ID: " ++
        toString e.accountId)))
    | some b =>
      match e.entryType with
      | .CREDIT => applyEntriesLoop msg (setBal bs e.accountId (b + e.amount)) rest
      | .DEBIT =>
        if b - e.amount < 0 then (bs, some (.insufficientFunds msg b e.amount))
        else applyEntriesLoop msg (setBal bs e.accountId (b - e.amount)) rest

/-- `TransactionService.reverseTransaction`. -/
def reverseTransaction (st : LedgerState) (txId : String) (d : ReversalTransactionDTO) :
    Except LedgerErr (LedgerState × Transaction) :=
  match st.journal.find? (fun t =>
      t.transactionId == d.originalTransactionId && t.status == .COMPLETED) with
  | none => .error (.notFound "Original transaction not found or not in completed state")
  | some orig =>
    match st.journal.find? (fun t =>
        t.originalTransactionId == some d.originalTransactionId &&
        t.transactionType == .REVERSAL) with
    | some _ => .error (.badRequest "Transaction has already been reversed")
    | none =>
      let reversedEntries := orig.entries.map flipEntry
      if ¬ validEntries reversedEntries then .error (.badRequest "Invalid transaction data")
      else if txIdTaken st txId then .error (.conflict "Duplicate transactionId")
      else
        match applyEntriesLoop "Insufficient funds for reversal" st.balances
            reversedEntries with
        | (_, some e) => .error e
        | (bs, none) =>
          let tx : Transaction :=
            { transactionId := txId, transactionType := .REVERSAL, userId := d.userId,
              entries := reversedEntries, amount := orig.amount, currency := orig.currency,
              fromAccount := orig.toAccount, toAccount := orig.fromAccount,
              status := .COMPLETED, reference := some d.originalTransactionId,
              originalTransactionId := some orig.transactionId }
          .ok ({ st with balances := bs, journal := tx :: st.journal }, tx)

/-- The human-readable message of an error (`Error.message` in the source),
recorded as `failureReason` by the sweep. -/
def errMessage : LedgerErr → String
  | .notFound m => m
  | .badRequest m => m
  | .insufficientFunds m _ _ => m
  | .conflict m => m
  | .transactionFailed m => m

/-- Rewrite one journal transaction's status (and, when failing, its
`failureReason`) in place, as the sweep's `transaction.save()` does. -/
def markTx (j : List Transaction) (id : String) (s : TransactionStatus)
    (reason : Option String) : List Transaction :=
  j.map (fun t =>
    if t.transactionId == id then
      match reason with
      | some m => { t with status := s, failureReason := some m }
      | none => { t with status := s }
    else t)

/-- Result record of `processPendingTransactions`. -/
structure SweepResult where
  processed : Nat
  failed : Nat
  failedIds : List String

deriving DecidableEq, Repr

/-- The per-transaction body of the sweep's `for` loop, folded over the
selected pending transactions.  All of it runs inside **one** MongoDB
session committed at the end: a transaction whose entry application fails
mid-way keeps the balance mutations applied so far, is marked FAILED with
`failureReason`, and the loop continues; but if even the `save()` that marks
it FAILED cannot succeed (its entries do not pass the schema validators) the
error escapes the per-transaction `catch`, the whole session aborts and the
sweep surfaces `TransactionError`. -/
def sweepGo : List Transaction → LedgerState → Nat → Nat → List String →
    Except LedgerErr (LedgerState × SweepResult)
  | [], st, p, f, ids => .ok (st, ⟨p, f, ids⟩)
  | t :: rest, st, p, f, ids =>
    if ¬ validEntries t.entries then
      .error (.transactionFailed "Failed to process pending transactions")
    else
      match applyEntriesLoop "Insufficient funds for transaction" st.balances t.entries with
      | (bs, none) =>
        sweepGo rest
          { st with balances := bs,
                    journal := markTx st.journal t.transactionId .COMPLETED none }
          (p + 1) f ids
      | (bs, some e) =>
        sweepGo rest
          { st with balances := bs,
                    journal := markTx st.journal t.transactionId .FAILED
                      (some (errMessage e)) }
          p (f + 1) (ids ++ [t.transactionId])

/-- `TransactionService.processPendingTransactions`: select the PENDING
transactions at least one minute old and process them in order. -/
def processPendingTransactions (st : LedgerState) (now : Nat) :
    Except LedgerErr (LedgerState × SweepResult) :=
  sweepGo
    (st.journal.filter (fun t =>
      t.status == .PENDING && decide (t.createdAt + 60000 ≤ now)))
    st 0 0 []

/-! ## The account-number input validator (`src/utils/validators.ts`) -/

/-- One character of the regex class `[0-9A-Za-z]`. -/
def isAlphaNumChar (c : Char) : Bool :=
  (('0' ≤ c) && (c ≤ '9')) || (('A' ≤ c) && (c ≤ 'Z')) || (('a' ≤ c) && (c ≤ 'z'))

/-- One character of the regex class `[0-9A-Fa-f]`. -/
def isHexDigitChar (c : Char) : Bool :=
  (('0' ≤ c) && (c ≤ '9')) || (('A' ≤ c) && (c ≤ 'F')) || (('a' ≤ c) && (c ≤ 'f'))

/-- `validateAccountNumber` from `src/utils/validators.ts`: the anchored
regex `^ACCT-[0-9A-Za-z]{4}-[0-9A-Za-z]{4}-[0-9A-Za-z]{4}$`, transcribed as
a total match on the string's characters. -/
def validateAccountNumber (s : String) : Bool :=
  match s.data with
  | ['A','C','C','T','-',a1,a2,a3,a4,'-',b1,b2,b3,b4,'-',c1,c2,c3,c4] =>
    [a1,a2,a3,a4,b1,b2,b3,b4,c1,c2,c3,c4].all isAlphaNumChar
  | _ => false

/-- Modelled from the spec: the account-number regex the specification
declares, `^ACCT-[0-9A-Fa-f]{4}-[0-9A-Fa-f]{4}-[0-9A-Fa-f]{4}$` (hex
groups), stated for comparison with the source's `validateAccountNumber`. -/
def specAccountNumberRegex (s : String) : Bool :=
  match s.data with
  | ['A','C','C','T','-',a1,a2,a3,a4,'-',b1,b2,b3,b4,'-',c1,c2,c3,c4] =>
    [a1,a2,a3,a4,b1,b2,b3,b4,c1,c2,c3,c4].all isHexDigitChar
  | _ => false

/-! ## Entry deltas and the balance-application loop -/

/-- The signed balance effect of one applied entry: CREDIT adds the amount,
DEBIT subtracts it. -/
def entryDelta (e : Entry) : ℚ :=
  match e.entryType with
  | .CREDIT => e.amount
  | .DEBIT => -e.amount

/-- Net signed effect of a list of entries on account `i`. -/
def txDelta (es : List Entry) (i : Nat) : ℚ :=
  es.foldr (fun e s => (if e.accountId = i then entryDelta e else 0) + s) 0

deriving instance DecidableEq for Except

/-! ## Concrete fixture states used by counterexamples and witnesses -/

/-- A customer account in USD. -/
def fixAcctA : Account :=
  { id := 1, accountNumber := "ACCT-0000-0000-0001", userId := "u1",
    accountType := "SAVINGS", currency := "USD", isActive := true }

/-- A second customer account in USD. -/
def fixAcctB : Account :=
  { id := 2, accountNumber := "ACCT-0000-0000-0002", userId := "u2",
    accountType := "SAVINGS", currency := "USD", isActive := true }

/-- The WITHDRAWALS system account for USD (as `getSystemAccount` creates
it), holding the zero balance it is initialized with — the direct
withdrawal path never credits it. -/
def fixAcctSys : Account :=
  { id := 2, accountNumber := "SYS-2", userId := "000000000000000000000001",
    accountType := "SYSTEM", currency := "USD", isActive := true,
    purpose := some "WITHDRAWALS" }

/-- A deferred (PENDING) transfer `{CREDIT account 1, DEBIT account 2}` of
10, submitted at time 0. -/
def fixPend : Transaction :=
  { transactionId := "TRF-PEND-1", transactionType := .TRANSFER, userId := "u1",
    entries := [⟨1, .CREDIT, 10⟩, ⟨2, .DEBIT, 10⟩], amount := 10, currency := "USD",
    status := .PENDING, createdAt := 0 }

/-- Sweep fixture: account 1 holds 0, account 2 holds 5 — applying
`fixPend` credits account 1 with 10 and then fails on account 2's DEBIT. -/
def fixStSweep : LedgerState :=
  { accounts := [], balances := [(1, 0), (2, 5)], journal := [fixPend] }

/-- The state the sweep commits for `fixStSweep`: account 1 keeps the
partial credit, the pending transaction is FAILED with its reason. -/
def fixStSweepAfter : LedgerState :=
  { accounts := [], balances := [(1, 10), (2, 5)],
    journal := [{ fixPend with
                  status := .FAILED,
                  failureReason := some "Insufficient funds for transaction" }] }

/-- A COMPLETED withdrawal of 30 from account 1 to the WITHDRAWALS system
account (account 2). -/
def fixWdr : Transaction :=
  { transactionId := "WDR-1", transactionType := .WITHDRAWAL, userId := "u1",
    entries := [⟨1, .DEBIT, 30⟩, ⟨2, .CREDIT, 30⟩], amount := 30, currency := "USD",
    fromAccount := some "ACCT-0000-0000-0001", status := .COMPLETED }

/-- Reversal fixture for the SYSTEM-account check: the customer holds 70
after the withdrawal, the WITHDRAWALS system account still holds 0. -/
def fixStWdr : LedgerState :=
  { accounts := [fixAcctA, fixAcctSys], balances := [(1, 70), (2, 0)],
    journal := [fixWdr] }

/-- A FAILED reversal of `fixWdr` (REVERSAL type, metadata carrying the
original id), persisted in the journal. -/
def fixFailedRev : Transaction :=
  { transactionId := "REV-0", transactionType := .REVERSAL, userId := "admin",
    entries := [⟨1, .CREDIT, 30⟩, ⟨2, .DEBIT, 30⟩], amount := 30, currency := "USD",
    status := .FAILED, reference := some "WDR-1",
    originalTransactionId := some "WDR-1",
    failureReason := some "Insufficient funds for transaction" }

/-- State whose journal holds the COMPLETED withdrawal and a FAILED
reversal of it. -/
def fixStFailedRev : LedgerState :=
  { accounts := [fixAcctA, fixAcctSys], balances := [(1, 70), (2, 0)],
    journal := [fixWdr, fixFailedRev] }

/-- A COMPLETED transfer of 40 from account 1 to account 2. -/
def fixTrf : Transaction :=
  { transactionId := "TRF-X", transactionType := .TRANSFER, userId := "u1",
    entries := [⟨1, .DEBIT, 40⟩, ⟨2, .CREDIT, 40⟩], amount := 40, currency := "USD",
    fromAccount := some "ACCT-0000-0000-0001",
    toAccount := some "ACCT-0000-0000-0002", status := .COMPLETED }

/-- State after `fixTrf` was applied to balances `{1 ↦ 100, 2 ↦ 0}`. -/
def fixStTrf : LedgerState :=
  { accounts := [fixAcctA, fixAcctB], balances := [(1, 60), (2, 40)],
    journal := [fixTrf] }

/-- The reversal `reverseTransaction` builds for `fixTrf`. -/
def fixRev : Transaction :=
  { transactionId := "REV-X", transactionType := .REVERSAL, userId := "admin",
    entries := [⟨1, .CREDIT, 40⟩, ⟨2, .DEBIT, 40⟩], amount := 40, currency := "USD",
    fromAccount := some "ACCT-0000-0000-0002",
    toAccount := some "ACCT-0000-0000-0001", status := .COMPLETED,
    reference := some "TRF-X", originalTransactionId := some "TRF-X" }

/-- The committed state after reversing `fixTrf` on `fixStTrf`. -/
def fixStTrfRev : LedgerState :=
  { accounts := [fixAcctA, fixAcctB], balances := [(1, 100), (2, 0)],
    journal := [fixRev, fixTrf] }

/-- Deposit fixture: one customer account holding 0. -/
def fixStDep : LedgerState :=
  { accounts := [fixAcctA], balances := [(1, 0)], journal := [] }

/-- A journal transaction with balanced 5/5 entries but declared amount 7
(violates T4) whose entries reference no stored account (violates T3). -/
def fixTxT4 : Transaction :=
  { transactionId := "T-BAD-AMT", transactionType := .TRANSFER, userId := "u",
    entries := [⟨1, .DEBIT, 5⟩, ⟨2, .CREDIT, 5⟩], amount := 7, currency := "USD",
    status := .PENDING }

/-- A state with an empty account collection. -/
def fixStEmpty : LedgerState := { accounts := [], balances := [], journal := [] }

/-- A journal transaction whose entries balance exactly in decimal
arithmetic (0.1 + 0.2 debits against a 0.3 credit) and satisfy T1, T2 and
T4. -/
def fixTxTenth : Transaction :=
  { transactionId := "T-TENTH", transactionType := .TRANSFER, userId := "u",
    entries := [⟨1, .DEBIT, 0.1⟩, ⟨2, .DEBIT, 0.2⟩, ⟨3, .CREDIT, 0.3⟩],
    amount := 0.3, currency := "USD", status := .PENDING }

theorem log2F_spec : ∀ fuel n : Nat, n ≤ fuel → 1 ≤ n →
    2 ^ log2F fuel n ≤ n ∧ n < 2 ^ (log2F fuel n + 1) := by
  intro fuel
  induction fuel with
  | zero => intro n hn h1; omega
  | succ f ih =>
    intro n hn h1
    by_cases h2 : 2 ≤ n
    · have hrec := ih (n / 2) (by omega) (by omega)
      simp only [log2F, if_pos h2]
      refine ⟨?_, ?_⟩
      · calc 2 ^ (log2F f (n / 2) + 1) = 2 * 2 ^ (log2F f (n / 2)) := by ring
          _ ≤ 2 * (n / 2) := by omega
          _ ≤ n := by omega
      · have h' : n / 2 < 2 ^ (log2F f (n / 2) + 1) := hrec.2
        calc n < 2 * (n / 2) + 2 := by omega
          _ ≤ 2 * 2 ^ (log2F f (n / 2) + 1) := by omega
          _ = 2 ^ (log2F f (n / 2) + 1 + 1) := by ring
    · simp only [log2F, if_neg h2]
      omega

theorem natLog2_le {n : Nat} (h : 1 ≤ n) : 2 ^ natLog2 n ≤ n :=
  (log2F_spec n n le_rfl h).1

theorem natLog2_lt {n : Nat} (h : 1 ≤ n) : n < 2 ^ (natLog2 n + 1) :=
  (log2F_spec n n le_rfl h).2

theorem cast_two_pow (k : ℕ) : ((2 ^ k : ℤ) : ℚ) = (2 : ℚ) ^ (k : ℤ) := by
  push_cast
  rw [zpow_natCast]

theorem cast_two_powN (k : ℕ) : ((2 ^ k : ℕ) : ℚ) = (2 : ℚ) ^ (k : ℤ) := by
  push_cast
  rw [zpow_natCast]

theorem floorLog2_spec {q : ℚ} (hq : 0 < q) :
    (2 : ℚ) ^ floorLog2 q ≤ q ∧ q < (2 : ℚ) ^ (floorLog2 q + 1) := by
  have hnum : 0 < q.num := Rat.num_pos.mpr hq
  have hn1 : 1 ≤ q.num.natAbs := by omega
  have hd1 : 1 ≤ q.den := q.pos
  have hDpos : (0 : ℚ) < (q.den : ℚ) := by exact_mod_cast q.pos
  have hNq : (q.num.natAbs : ℚ) = (q.num : ℚ) := by
    have h : (q.num.natAbs : ℤ) = q.num := Int.natAbs_of_nonneg hnum.le
    calc (q.num.natAbs : ℚ) = ((q.num.natAbs : ℤ) : ℚ) := (Int.cast_natCast _).symm
      _ = (q.num : ℚ) := by rw [h]
  have hq_eq : q = (q.num.natAbs : ℚ) / (q.den : ℚ) := by
    rw [hNq]
    exact (Rat.num_div_den q).symm
  have e1 : (2 : ℚ) ^ ((natLog2 q.num.natAbs : ℕ) : ℤ) ≤ (q.num.natAbs : ℚ) := by
    rw [← cast_two_powN]
    exact_mod_cast natLog2_le hn1
  have e2 : (q.num.natAbs : ℚ) < (2 : ℚ) ^ (((natLog2 q.num.natAbs : ℕ) : ℤ) + 1) := by
    have hcoe : (((natLog2 q.num.natAbs : ℕ) : ℤ) + 1) =
        ((natLog2 q.num.natAbs + 1 : ℕ) : ℤ) := by push_cast; ring
    rw [hcoe, ← cast_two_powN]
    exact_mod_cast natLog2_lt hn1
  have e3 : (2 : ℚ) ^ ((natLog2 q.den : ℕ) : ℤ) ≤ (q.den : ℚ) := by
    rw [← cast_two_powN]
    exact_mod_cast natLog2_le hd1
  have e4 : (q.den : ℚ) < (2 : ℚ) ^ (((natLog2 q.den : ℕ) : ℤ) + 1) := by
    have hcoe : (((natLog2 q.den : ℕ) : ℤ) + 1) = ((natLog2 q.den + 1 : ℕ) : ℤ) := by
      push_cast; ring
    rw [hcoe, ← cast_two_powN]
    exact_mod_cast natLog2_lt hd1
  set N : ℚ := (q.num.natAbs : ℚ)
  set D : ℚ := (q.den : ℚ)
  set c : ℤ := ((natLog2 q.num.natAbs : ℕ) : ℤ) - ((natLog2 q.den : ℕ) : ℤ) with hc
  have hlow : (2 : ℚ) ^ (c - 1) < q := by
    rw [hq_eq, lt_div_iff₀ hDpos]
    calc (2 : ℚ) ^ (c - 1) * D
        < (2 : ℚ) ^ (c - 1) * (2 : ℚ) ^ (((natLog2 q.den : ℕ) : ℤ) + 1) := by
          exact mul_lt_mul_of_pos_left e4 (by positivity)
      _ = (2 : ℚ) ^ ((natLog2 q.num.natAbs : ℕ) : ℤ) := by
          rw [← zpow_add₀ (by norm_num : (2:ℚ) ≠ 0)]
          congr 1
          rw [hc]; ring
      _ ≤ N := e1
  have hhigh : q < (2 : ℚ) ^ (c + 1) := by
    rw [hq_eq, div_lt_iff₀ hDpos]
    calc N < (2 : ℚ) ^ (((natLog2 q.num.natAbs : ℕ) : ℤ) + 1) := e2
      _ = (2 : ℚ) ^ (c + 1) * (2 : ℚ) ^ ((natLog2 q.den : ℕ) : ℤ) := by
          rw [← zpow_add₀ (by norm_num : (2:ℚ) ≠ 0)]
          congr 1
          rw [hc]; ring
      _ ≤ (2 : ℚ) ^ (c + 1) * D := by
          exact mul_le_mul_of_nonneg_left e3 (by positivity)
  have hdef : floorLog2 q =
      if (2 : ℚ) ^ (c + 1) ≤ q then c + 1 else if (2 : ℚ) ^ c ≤ q then c else c - 1 := by
    simp only [floorLog2, hc]
  rw [hdef]
  by_cases hA : (2 : ℚ) ^ (c + 1) ≤ q
  · exact absurd hhigh (not_lt.mpr hA)
  · rw [if_neg hA]
    by_cases hB : (2 : ℚ) ^ c ≤ q
    · rw [if_pos hB]
      exact ⟨hB, not_le.mp hA⟩
    · rw [if_neg hB]
      refine ⟨hlow.le, ?_⟩
      rw [show c - 1 + 1 = c by ring]
      exact not_le.mp hB

theorem floorLog2_unique {q : ℚ} {e : ℤ} (hq : 0 < q)
    (h1 : (2 : ℚ) ^ e ≤ q) (h2 : q < (2 : ℚ) ^ (e + 1)) : floorLog2 q = e := by
  obtain ⟨g1, g2⟩ := floorLog2_spec hq
  by_contra hne
  rcases lt_or_gt_of_ne hne with h | h
  · have hmono : (2 : ℚ) ^ (floorLog2 q + 1) ≤ (2 : ℚ) ^ e :=
      zpow_le_zpow_right₀ (by norm_num) (by omega)
    exact absurd (lt_of_lt_of_le g2 (le_trans hmono h1)) (lt_irrefl q)
  · have hmono : (2 : ℚ) ^ (e + 1) ≤ (2 : ℚ) ^ floorLog2 q :=
      zpow_le_zpow_right₀ (by norm_num) (by omega)
    exact absurd (lt_of_lt_of_le h2 (le_trans hmono g1)) (lt_irrefl q)

theorem rhne_intCast (m : ℤ) : rhne (m : ℚ) = m := by
  simp [rhne, Int.floor_intCast]

theorem rhne_ge (x : ℚ) : x - 1 / 2 ≤ (rhne x : ℚ) := by
  have hf : (⌊x⌋ : ℚ) ≤ x := Int.floor_le x
  have hf' : x < ⌊x⌋ + 1 := Int.lt_floor_add_one x
  unfold rhne
  split_ifs with h1 h2 h3 <;> push_cast <;> linarith

theorem rhne_le (x : ℚ) : (rhne x : ℚ) ≤ x + 1 / 2 := by
  have hf : (⌊x⌋ : ℚ) ≤ x := Int.floor_le x
  have hf' : x < ⌊x⌋ + 1 := Int.lt_floor_add_one x
  unfold rhne
  split_ifs with h1 h2 h3 <;> push_cast <;> linarith

theorem flPos_repr {q : ℚ} (hq : 0 < q) :
    ∃ m : ℤ, flPos q = (m : ℚ) * (2 : ℚ) ^ (floorLog2 q - 52) ∧
      2 ^ 52 ≤ m ∧ m ≤ 2 ^ 53 := by
  obtain ⟨h1, h2⟩ := floorLog2_spec hq
  set e := floorLog2 q with he
  have hstep : (0 : ℚ) < (2 : ℚ) ^ (e - 52) := by positivity
  set t := q / (2 : ℚ) ^ (e - 52) with ht
  have ht1 : (2 : ℚ) ^ (52 : ℤ) ≤ t := by
    rw [ht, le_div_iff₀ hstep, ← zpow_add₀ (by norm_num : (2:ℚ) ≠ 0)]
    rw [show (52 : ℤ) + (e - 52) = e by ring]
    exact h1
  have ht2 : t < (2 : ℚ) ^ (53 : ℤ) := by
    rw [ht, div_lt_iff₀ hstep, ← zpow_add₀ (by norm_num : (2:ℚ) ≠ 0)]
    rw [show (53 : ℤ) + (e - 52) = e + 1 by ring]
    exact h2
  refine ⟨rhne t, rfl, ?_, ?_⟩
  · have hlt : ((2 ^ 52 - 1 : ℤ) : ℚ) < (rhne t : ℚ) := by
      have hc : ((2 ^ 52 - 1 : ℤ) : ℚ) = (2 : ℚ) ^ ((52 : ℕ) : ℤ) - 1 := by
        rw [Int.cast_sub, cast_two_pow, Int.cast_one]
      rw [hc]
      have h52 : ((52 : ℕ) : ℤ) = (52 : ℤ) := by norm_num
      rw [h52]
      linarith [rhne_ge t]
    have := Int.cast_lt.mp hlt
    omega
  · have hlt : (rhne t : ℚ) < ((2 ^ 53 + 1 : ℤ) : ℚ) := by
      have hc : ((2 ^ 53 + 1 : ℤ) : ℚ) = (2 : ℚ) ^ ((53 : ℕ) : ℤ) + 1 := by
        rw [Int.cast_add, cast_two_pow, Int.cast_one]
      rw [hc]
      have h53 : ((53 : ℕ) : ℤ) = (53 : ℤ) := by norm_num
      rw [h53]
      linarith [rhne_le t]
    have := Int.cast_lt.mp hlt
    omega

theorem flPos_fixed {m : ℤ} (e : ℤ) (hm1 : 2 ^ 52 ≤ m) (hm2 : m < 2 ^ 53) :
    flPos ((m : ℚ) * (2 : ℚ) ^ (e - 52)) = (m : ℚ) * (2 : ℚ) ^ (e - 52) := by
  set x : ℚ := (m : ℚ) * (2 : ℚ) ^ (e - 52) with hx
  have hstep : (0 : ℚ) < (2 : ℚ) ^ (e - 52) := by positivity
  have hmq : (0 : ℚ) < (m : ℚ) := by
    have : (0 : ℤ) < m := by positivity
    exact_mod_cast this
  have hxpos : 0 < x := by rw [hx]; positivity
  have hm1' : (2 : ℚ) ^ ((52 : ℕ) : ℤ) ≤ (m : ℚ) := by
    rw [← cast_two_pow]; exact_mod_cast hm1
  have hm2' : (m : ℚ) < (2 : ℚ) ^ ((53 : ℕ) : ℤ) := by
    rw [← cast_two_pow]; exact_mod_cast hm2
  have h52 : ((52 : ℕ) : ℤ) = (52 : ℤ) := by norm_num
  have h53 : ((53 : ℕ) : ℤ) = (53 : ℤ) := by norm_num
  rw [h52] at hm1'
  rw [h53] at hm2'
  have hflog : floorLog2 x = e := by
    apply floorLog2_unique hxpos
    · calc (2 : ℚ) ^ e = (2 : ℚ) ^ ((52 : ℤ) + (e - 52)) := by
            rw [show (52 : ℤ) + (e - 52) = e by ring]
        _ = (2 : ℚ) ^ (52 : ℤ) * (2 : ℚ) ^ (e - 52) :=
            zpow_add₀ (by norm_num : (2:ℚ) ≠ 0) _ _
        _ ≤ (m : ℚ) * (2 : ℚ) ^ (e - 52) :=
            mul_le_mul_of_nonneg_right hm1' hstep.le
    · calc x < (2 : ℚ) ^ (53 : ℤ) * (2 : ℚ) ^ (e - 52) :=
            mul_lt_mul_of_pos_right hm2' hstep
        _ = (2 : ℚ) ^ ((53 : ℤ) + (e - 52)) :=
            (zpow_add₀ (by norm_num : (2:ℚ) ≠ 0) _ _).symm
        _ = (2 : ℚ) ^ (e + 1) := by
            rw [show (53 : ℤ) + (e - 52) = e + 1 by ring]
  have hdiv : x / (2 : ℚ) ^ (e - 52) = (m : ℚ) := by
    rw [hx, mul_div_assoc, div_self (ne_of_gt hstep), mul_one]
  unfold flPos
  rw [hflog, hdiv, rhne_intCast]

theorem flPos_pos {q : ℚ} (hq : 0 < q) : 0 < flPos q := by
  obtain ⟨m, hrepr, hm1, _⟩ := flPos_repr hq
  rw [hrepr]
  have hmq : (0 : ℚ) < (m : ℚ) := by
    have : (0 : ℤ) < m := by positivity
    exact_mod_cast this
  positivity

theorem flPos_idem {q : ℚ} (hq : 0 < q) : flPos (flPos q) = flPos q := by
  obtain ⟨m, hrepr, hm1, hm2⟩ := flPos_repr hq
  rcases eq_or_lt_of_le hm2 with heq | hlt
  · -- the rounded mantissa is exactly 2^53 : renormalize to 2^52·2^((e+1)-52)
    have hcarry : (m : ℚ) * (2 : ℚ) ^ (floorLog2 q - 52) =
        ((2 ^ 52 : ℤ) : ℚ) * (2 : ℚ) ^ ((floorLog2 q + 1) - 52) := by
      rw [heq]
      push_cast
      rw [show (floorLog2 q + 1) - 52 = (floorLog2 q - 52) + 1 by ring,
        zpow_add₀ (by norm_num : (2:ℚ) ≠ 0)]
      ring
    rw [hrepr, hcarry]
    exact flPos_fixed (floorLog2 q + 1) le_rfl (by norm_num)
  · rw [hrepr]
    exact flPos_fixed (floorLog2 q) hm1 hlt

theorem fl_pos_eq {q : ℚ} (hq : 0 < q) : fl q = flPos q := by
  simp only [fl]
  rw [if_neg (ne_of_gt hq), if_neg (not_lt.mpr hq.le)]

theorem fl_neg_eq {q : ℚ} (hq : q < 0) : fl q = -flPos (-q) := by
  simp only [fl]
  rw [if_neg (ne_of_lt hq), if_pos hq]

theorem fl_zero : fl 0 = 0 := rfl

theorem fl_idem (q : ℚ) : fl (fl q) = fl q := by
  by_cases h0 : q = 0
  · rw [h0]; rfl
  rcases lt_or_gt_of_ne h0 with hneg | hpos
  · have hp : 0 < flPos (-q) := flPos_pos (by linarith)
    rw [fl_neg_eq hneg, fl_neg_eq (by linarith : -flPos (-q) < 0), neg_neg,
      flPos_idem (by linarith)]
  · have hp : 0 < flPos q := flPos_pos hpos
    rw [fl_pos_eq hpos, fl_pos_eq hp, flPos_idem hpos]

theorem fl_neg (q : ℚ) : fl (-q) = -fl q := by
  by_cases h0 : q = 0
  · rw [h0]; norm_num; rfl
  rcases lt_or_gt_of_ne h0 with hneg | hpos
  · rw [fl_neg_eq hneg, fl_pos_eq (by linarith : 0 < -q), neg_neg]
  · rw [fl_pos_eq hpos, fl_neg_eq (by linarith : -q < 0), neg_neg]

theorem jsEntrySum_debit_credit (i j : Nat) (a : ℚ) :
    jsEntrySum [⟨i, .DEBIT, a⟩, ⟨j, .CREDIT, a⟩] = 0 := by
  simp only [jsEntrySum, List.foldl, entrySigned, zero_add]
  rw [fl_idem, add_neg_cancel, fl_zero]

theorem jsEntrySum_credit_debit (i j : Nat) (a : ℚ) :
    jsEntrySum [⟨i, .CREDIT, a⟩, ⟨j, .DEBIT, a⟩] = 0 := by
  simp only [jsEntrySum, List.foldl, entrySigned, zero_add]
  rw [show fl (-fl a) = -fl (fl a) from fl_neg (fl a), fl_idem, neg_add_cancel, fl_zero]

theorem validEntries_debit_credit (i j : Nat) (a : ℚ) :
    validEntries [⟨i, .DEBIT, a⟩, ⟨j, .CREDIT, a⟩] = true := by
  simp [validEntries, jsEntrySum_debit_credit]

theorem validEntries_credit_debit (i j : Nat) (a : ℚ) :
    validEntries [⟨i, .CREDIT, a⟩, ⟨j, .DEBIT, a⟩] = true := by
  simp [validEntries, jsEntrySum_credit_debit]

/-! ## Balance-store lemmas -/

theorem lookupBal_cons (p : Nat × ℚ) (bs : List (Nat × ℚ)) (i : Nat) :
    lookupBal (p :: bs) i = if p.1 = i then some p.2 else lookupBal bs i := by
  by_cases h : p.1 = i
  · simp [lookupBal, List.find?_cons, h]
  · simp [lookupBal, List.find?_cons, h]

theorem setBal_cons (p : Nat × ℚ) (bs : List (Nat × ℚ)) (i : Nat) (v : ℚ) :
    setBal (p :: bs) i v =
      (if p.1 = i then (p.1, v) else p) :: setBal bs i v := by
  by_cases h : p.1 = i <;> simp [setBal, h]

theorem lookupBal_setBal_self {bs : List (Nat × ℚ)} {i : Nat} {b : ℚ} (v : ℚ)
    (h : lookupBal bs i = some b) : lookupBal (setBal bs i v) i = some v := by
  induction bs with
  | nil => simp [lookupBal] at h
  | cons p rest ih =>
    rw [setBal_cons]
    by_cases hp : p.1 = i
    · rw [if_pos hp, lookupBal_cons, if_pos hp]
    · rw [if_neg hp, lookupBal_cons, if_neg hp]
      rw [lookupBal_cons, if_neg hp] at h
      exact ih h

theorem lookupBal_setBal_ne {i j : Nat} (bs : List (Nat × ℚ)) (v : ℚ) (h : i ≠ j) :
    lookupBal (setBal bs i v) j = lookupBal bs j := by
  induction bs with
  | nil => simp [setBal, lookupBal]
  | cons p rest ih =>
    rw [setBal_cons]
    by_cases hp : p.1 = i
    · rw [if_pos hp, lookupBal_cons, lookupBal_cons]
      simp only [hp]
      rw [if_neg h, if_neg h]
      exact ih
    · rw [if_neg hp, lookupBal_cons, lookupBal_cons]
      by_cases hj : p.1 = j
      · rw [if_pos hj, if_pos hj]
      · rw [if_neg hj, if_neg hj]
        exact ih

theorem lookupBal_append_left {bs : List (Nat × ℚ)} {i : Nat} {b : ℚ}
    (l : List (Nat × ℚ)) (h : lookupBal bs i = some b) :
    lookupBal (bs ++ l) i = some b := by
  induction bs with
  | nil => simp [lookupBal] at h
  | cons p rest ih =>
    rw [List.cons_append, lookupBal_cons]
    rw [lookupBal_cons] at h
    by_cases hp : p.1 = i
    · rwa [if_pos hp] at h ⊢
    · rw [if_neg hp] at h ⊢
      exact ih h

theorem setBal_fst (bs : List (Nat × ℚ)) (i : Nat) (v : ℚ) :
    (setBal bs i v).map Prod.fst = bs.map Prod.fst := by
  induction bs with
  | nil => rfl
  | cons p rest ih =>
    rw [setBal_cons]
    by_cases hp : p.1 = i <;> simp [hp, ih]

theorem totalBal_append (bs l : List (Nat × ℚ)) :
    totalBal (bs ++ l) = totalBal bs + totalBal l := by
  simp [totalBal]

theorem setBal_of_not_mem {bs : List (Nat × ℚ)} {i : Nat}
    (h : i ∉ bs.map Prod.fst) (v : ℚ) : setBal bs i v = bs := by
  induction bs with
  | nil => rfl
  | cons p rest ih =>
    simp only [List.map_cons, List.mem_cons] at h
    push_neg at h
    rw [setBal_cons, if_neg (fun hp => h.1 hp.symm), ih h.2]

theorem totalBal_setBal {bs : List (Nat × ℚ)} {i : Nat} {b : ℚ}
    (hnd : (bs.map Prod.fst).Nodup) (h : lookupBal bs i = some b) (v : ℚ) :
    totalBal (setBal bs i v) = totalBal bs - b + v := by
  induction bs with
  | nil => simp [lookupBal] at h
  | cons p rest ih =>
    simp only [List.map_cons, List.nodup_cons] at hnd
    rw [setBal_cons]
    rw [lookupBal_cons] at h
    by_cases hp : p.1 = i
    · rw [if_pos hp] at h ⊢
      obtain rfl : p.2 = b := Option.some.inj h
      have hnm : i ∉ rest.map Prod.fst := hp ▸ hnd.1
      rw [setBal_of_not_mem hnm]
      simp [totalBal]
      ring
    · rw [if_neg hp] at h ⊢
      simp only [totalBal, List.map_cons, List.sum_cons]
      have hrec := ih hnd.2 h
      simp only [totalBal] at hrec
      rw [hrec]
      ring

/-! ## `getSystemAccount` lemmas -/

theorem getSystemAccount_journal (st : LedgerState) (purpose currency : String) :
    ((getSystemAccount st purpose currency).1).journal = st.journal := by
  unfold getSystemAccount
  cases st.accounts.find? (fun a =>
      a.accountType == "SYSTEM" && a.currency == currency && a.purpose == some purpose) <;>
    rfl

theorem getSystemAccount_lookupBal {st : LedgerState} {i : Nat} {b : ℚ}
    (purpose currency : String) (h : lookupBal st.balances i = some b) :
    lookupBal ((getSystemAccount st purpose currency).1).balances i = some b := by
  unfold getSystemAccount
  cases st.accounts.find? (fun a =>
      a.accountType == "SYSTEM" && a.currency == currency && a.purpose == some purpose) with
  | none => exact lookupBal_append_left _ h
  | some a => exact h

theorem getSystemAccount_totalBal (st : LedgerState) (purpose currency : String) :
    totalBal ((getSystemAccount st purpose currency).1).balances =
      totalBal st.balances := by
  unfold getSystemAccount
  cases st.accounts.find? (fun a =>
      a.accountType == "SYSTEM" && a.currency == currency && a.purpose == some purpose) with
  | none => simp [totalBal_append, totalBal]
  | some a => rfl

theorem txIdTaken_getSystemAccount (st : LedgerState) (purpose currency txId : String) :
    txIdTaken ((getSystemAccount st purpose currency).1) txId = txIdTaken st txId := by
  unfold txIdTaken
  rw [getSystemAccount_journal]

/-! ## Claim C2 : withdrawal semantics -/

/-- C2.  For every withdrawal request on an existing active account of
matching currency (with a balance row), if the balance is below the
requested amount the operation fails with `InsufficientFunds{available,
requested}` — an aborted session, so no journal entry or balance change
persists — and otherwise (balance ≥ amount, equality included) it commits
exactly one COMPLETED WDR transaction with entries
`{DEBIT customer, CREDIT system(WITHDRAWALS, currency)}` each for the
amount, and the customer balance decreases by exactly the amount. -/
theorem createWithdrawal_spec (st : LedgerState) (txId : String)
    (d : WithdrawalTransactionDTO) (acct : Account) (bal : ℚ)
    (hA : findAccountActive st d.accountNumber = some acct)
    (hC : acct.currency = d.currency)
    (hB : lookupBal st.balances acct.id = some bal)
    (hFresh : txIdTaken st txId = false) :
    (bal < d.amount →
      createWithdrawal st txId d =
        .error (.insufficientFunds "Insufficient funds for withdrawal" bal d.amount)) ∧
    (d.amount ≤ bal →
      ∃ st' tx, createWithdrawal st txId d = .ok (st', tx) ∧
        tx.status = .COMPLETED ∧
        tx.transactionType = .WITHDRAWAL ∧
        tx.amount = d.amount ∧
        tx.entries = [⟨acct.id, .DEBIT, d.amount⟩,
          ⟨(getSystemAccount st "WITHDRAWALS" d.currency).2, .CREDIT, d.amount⟩] ∧
        st'.journal = tx :: st.journal ∧
        lookupBal st'.balances acct.id = some (bal - d.amount)) := by
  have hBsys : lookupBal ((getSystemAccount st "WITHDRAWALS" d.currency).1).balances
      acct.id = some bal := getSystemAccount_lookupBal _ _ hB
  constructor
  · intro hlt
    simp only [createWithdrawal, hA, hB]
    rw [if_neg (by simp [hC]), if_pos hlt]
  · intro hge
    have hnl : ¬ bal < d.amount := not_lt.mpr hge
    have hmain : createWithdrawal st txId d =
        .ok ({ (getSystemAccount st "WITHDRAWALS" d.currency).1 with
                balances := setBal
                  ((getSystemAccount st "WITHDRAWALS" d.currency).1).balances
                  acct.id (bal - d.amount),
                journal :=
                  { transactionId := txId, transactionType := .WITHDRAWAL,
                    userId := d.userId,
                    entries := [⟨acct.id, .DEBIT, d.amount⟩,
                      ⟨(getSystemAccount st "WITHDRAWALS" d.currency).2, .CREDIT,
                        d.amount⟩],
                    amount := d.amount, currency := d.currency,
                    fromAccount := some acct.accountNumber, status := .COMPLETED,
                    reference := some txId } ::
                    ((getSystemAccount st "WITHDRAWALS" d.currency).1).journal },
              { transactionId := txId, transactionType := .WITHDRAWAL,
                userId := d.userId,
                entries := [⟨acct.id, .DEBIT, d.amount⟩,
                  ⟨(getSystemAccount st "WITHDRAWALS" d.currency).2, .CREDIT, d.amount⟩],
                amount := d.amount, currency := d.currency,
                fromAccount := some acct.accountNumber, status := .COMPLETED,
                reference := some txId }) := by
      simp only [createWithdrawal, hA, hB]
      rw [if_neg (by simp [hC]), if_neg hnl,
        if_neg (by simp [validEntries_debit_credit]),
        if_neg (by simp [txIdTaken_getSystemAccount, hFresh])]
    exact ⟨_, _, hmain, rfl, rfl, rfl, rfl, by simp only [getSystemAccount_journal],
      lookupBal_setBal_self _ hBsys⟩

/-- Witness for `createWithdrawal_spec` at a concrete state : account 1
holds 100 USD and a withdrawal of 200 is refused with
`InsufficientFunds(100, 200)`. -/
theorem createWithdrawal_spec_witness :
    createWithdrawal
        { accounts := [{ id := 1, accountNumber := "ACCT-0000-0000-0001", userId := "u1",
                         accountType := "SAVINGS", currency := "USD", isActive := true }],
          balances := [(1, 100)], journal := [] }
        "WDR-9" ⟨"u1", "ACCT-0000-0000-0001", 200, "USD"⟩ =
      .error (.insufficientFunds "Insufficient funds for withdrawal" 100 200) :=
  (createWithdrawal_spec
    { accounts := [{ id := 1, accountNumber := "ACCT-0000-0000-0001", userId := "u1",
                     accountType := "SAVINGS", currency := "USD", isActive := true }],
      balances := [(1, 100)], journal := [] }
    "WDR-9" ⟨"u1", "ACCT-0000-0000-0001", 200, "USD"⟩
    { id := 1, accountNumber := "ACCT-0000-0000-0001", userId := "u1",
      accountType := "SAVINGS", currency := "USD", isActive := true }
    100 (by decide) (by decide) (by decide) (by decide)).1 (by decide)

/-! ## Claim C3 : transfer semantics -/

/-- C3.  A transfer succeeds only when every precondition holds
(distinct account numbers, both accounts found and active, both in the
declared currency, source owned by the requesting user, balance rows
present, source balance at least the amount); an unmet precondition aborts
the session, so nothing persists.  When they all hold (for distinct
account documents and a fresh transaction id), it commits one COMPLETED TRF
transaction with entries `{DEBIT from, CREDIT to}` each for the amount, the
source balance decreases by the amount and the destination balance
increases by it. -/
theorem createTransfer_spec (st : LedgerState) (txId : String)
    (d : TransferTransactionDTO) :
    (∀ st' tx, createTransfer st txId d = .ok (st', tx) →
      d.fromAccountNumber ≠ d.toAccountNumber ∧
      ∃ sa da bs bd,
        findAccountActive st d.fromAccountNumber = some sa ∧
        findAccountActive st d.toAccountNumber = some da ∧
        sa.currency = d.currency ∧ da.currency = d.currency ∧
        sa.userId = d.userId ∧
        lookupBal st.balances sa.id = some bs ∧
        lookupBal st.balances da.id = some bd ∧
        d.amount ≤ bs) ∧
    (∀ sa da bs bd,
      d.fromAccountNumber ≠ d.toAccountNumber →
      findAccountActive st d.fromAccountNumber = some sa →
      findAccountActive st d.toAccountNumber = some da →
      sa.currency = d.currency → da.currency = d.currency →
      sa.userId = d.userId →
      lookupBal st.balances sa.id = some bs →
      lookupBal st.balances da.id = some bd →
      d.amount ≤ bs → sa.id ≠ da.id → txIdTaken st txId = false →
      ∃ st' tx, createTransfer st txId d = .ok (st', tx) ∧
        tx.status = .COMPLETED ∧ tx.transactionType = .TRANSFER ∧
        tx.amount = d.amount ∧
        tx.entries = [⟨sa.id, .DEBIT, d.amount⟩, ⟨da.id, .CREDIT, d.amount⟩] ∧
        st'.journal = tx :: st.journal ∧
        lookupBal st'.balances sa.id = some (bs - d.amount) ∧
        lookupBal st'.balances da.id = some (bd + d.amount)) := by
  constructor
  · intro st' tx h
    unfold createTransfer at h
    split at h
    · exact absurd h (by simp)
    · rename_i hne
      split at h
      · exact absurd h (by simp)
      · rename_i sa hsa
        split at h
        · exact absurd h (by simp)
        · rename_i da hda
          split at h
          · exact absurd h (by simp)
          · rename_i hc1
            split at h
            · exact absurd h (by simp)
            · rename_i hc2
              split at h
              · exact absurd h (by simp)
              · rename_i howner
                split at h
                · exact absurd h (by simp)
                · rename_i bs hbs
                  split at h
                  · exact absurd h (by simp)
                  · rename_i bd hbd
                    split at h
                    · exact absurd h (by simp)
                    · rename_i hsuff
                      refine ⟨by simpa using hne, sa, da, bs, bd, hsa, hda,
                        not_not.mp (by simpa using hc1),
                        not_not.mp (by simpa using hc2),
                        not_not.mp (by simpa using howner), hbs, hbd,
                        le_of_not_lt hsuff⟩
  · intro sa da bs bd hne hsa hda hc1 hc2 howner hbs hbd hsuff hid hFresh
    have hnl : ¬ bs < d.amount := not_lt.mpr hsuff
    have hmain : createTransfer st txId d =
        .ok ({ st with
                balances := setBal (setBal st.balances sa.id (bs - d.amount))
                  da.id (bd + d.amount),
                journal :=
                  { transactionId := txId, transactionType := .TRANSFER,
                    userId := d.userId,
                    entries := [⟨sa.id, .DEBIT, d.amount⟩, ⟨da.id, .CREDIT, d.amount⟩],
                    amount := d.amount, currency := d.currency,
                    fromAccount := some sa.accountNumber,
                    toAccount := some da.accountNumber, status := .COMPLETED,
                    reference := some txId } :: st.journal },
              { transactionId := txId, transactionType := .TRANSFER,
                userId := d.userId,
                entries := [⟨sa.id, .DEBIT, d.amount⟩, ⟨da.id, .CREDIT, d.amount⟩],
                amount := d.amount, currency := d.currency,
                fromAccount := some sa.accountNumber,
                toAccount := some da.accountNumber, status := .COMPLETED,
                reference := some txId }) := by
      simp only [createTransfer, hsa, hda, hbs, hbd]
      rw [if_neg (by simpa using hne), if_neg (by simp [hc1]), if_neg (by simp [hc2]),
        if_neg (by simp [howner]), if_neg hnl,
        if_neg (by simp [validEntries_debit_credit]), if_neg (by simp [hFresh])]
    refine ⟨_, _, hmain, rfl, rfl, rfl, rfl, rfl, ?_, ?_⟩
    · rw [lookupBal_setBal_ne _ _ (Ne.symm hid)]
      exact lookupBal_setBal_self _ hbs
    · have hmid : lookupBal (setBal st.balances sa.id (bs - d.amount)) da.id =
          some bd := by
        rw [lookupBal_setBal_ne _ _ hid]
        exact hbd
      exact lookupBal_setBal_self _ hmid

/-- Witness for `createTransfer_spec` at a concrete state : 150.00 USD
moves from account `A` (200.00) to account `B` (10.00), leaving 50.00 and
160.00. -/
theorem createTransfer_spec_witness :
    ∃ st' tx,
      createTransfer
          { accounts :=
              [{ id := 1, accountNumber := "ACCT-0000-0000-0001", userId := "u1",
                 accountType := "SAVINGS", currency := "USD", isActive := true },
               { id := 2, accountNumber := "ACCT-0000-0000-0002", userId := "u2",
                 accountType := "SAVINGS", currency := "USD", isActive := true }],
            balances := [(1, 200), (2, 10)], journal := [] }
          "TRF-1" ⟨"u1", "ACCT-0000-0000-0001", "ACCT-0000-0000-0002", 150, "USD"⟩ =
        .ok (st', tx) ∧
      tx.status = .COMPLETED ∧ tx.transactionType = .TRANSFER ∧
      tx.amount = 150 ∧
      tx.entries = [⟨1, .DEBIT, 150⟩, ⟨2, .CREDIT, 150⟩] ∧
      st'.journal = tx ::
        ({ accounts :=
              [{ id := 1, accountNumber := "ACCT-0000-0000-0001", userId := "u1",
                 accountType := "SAVINGS", currency := "USD", isActive := true },
               { id := 2, accountNumber := "ACCT-0000-0000-0002", userId := "u2",
                 accountType := "SAVINGS", currency := "USD", isActive := true }],
            balances := [(1, 200), (2, 10)], journal := [] } : LedgerState).journal ∧
      lookupBal st'.balances 1 = some (200 - 150) ∧
      lookupBal st'.balances 2 = some (10 + 150) :=
  (createTransfer_spec
      { accounts :=
          [{ id := 1, accountNumber := "ACCT-0000-0000-0001", userId := "u1",
             accountType := "SAVINGS", currency := "USD", isActive := true },
           { id := 2, accountNumber := "ACCT-0000-0000-0002", userId := "u2",
             accountType := "SAVINGS", currency := "USD", isActive := true }],
        balances := [(1, 200), (2, 10)], journal := [] }
      "TRF-1" ⟨"u1", "ACCT-0000-0000-0001", "ACCT-0000-0000-0002", 150, "USD"⟩).2
    { id := 1, accountNumber := "ACCT-0000-0000-0001", userId := "u1",
      accountType := "SAVINGS", currency := "USD", isActive := true }
    { id := 2, accountNumber := "ACCT-0000-0000-0002", userId := "u2",
      accountType := "SAVINGS", currency := "USD", isActive := true }
    200 10 (by decide) (by decide) (by decide) (by decide) (by decide) (by decide)
    (by decide) (by decide) (by decide) (by decide) (by decide)

theorem txDelta_nil (i : Nat) : txDelta [] i = 0 := rfl

theorem txDelta_cons (e : Entry) (es : List Entry) (i : Nat) :
    txDelta (e :: es) i = (if e.accountId = i then entryDelta e else 0) + txDelta es i :=
  rfl

theorem entryDelta_flip (e : Entry) : entryDelta (flipEntry e) = -entryDelta e := by
  rcases e with ⟨acc, ty, amt⟩
  cases ty <;> simp [flipEntry, entryDelta]

theorem flipEntry_accountId (e : Entry) : (flipEntry e).accountId = e.accountId := by
  rcases e with ⟨acc, ty, amt⟩
  cases ty <;> rfl

theorem txDelta_flip (es : List Entry) (i : Nat) :
    txDelta (es.map flipEntry) i = -txDelta es i := by
  induction es with
  | nil => simp [txDelta]
  | cons e rest ih =>
    rw [List.map_cons, txDelta_cons, txDelta_cons, ih, flipEntry_accountId]
    by_cases hi : e.accountId = i
    · rw [if_pos hi, if_pos hi, entryDelta_flip]; ring
    · rw [if_neg hi, if_neg hi]; ring

/-- A successful pass of the balance-application loop moves every balance
row by exactly the net entry delta for its account (rows of untouched
accounts, and accounts with no row, are unchanged). -/
theorem applyEntriesLoop_lookup (msg : String) :
    ∀ (es : List Entry) (bs bs' : List (Nat × ℚ)),
      applyEntriesLoop msg bs es = (bs', none) →
      ∀ i, lookupBal bs' i = (lookupBal bs i).map (fun b => b + txDelta es i) := by
  intro es
  induction es with
  | nil =>
    intro bs bs' h i
    simp only [applyEntriesLoop] at h
    obtain rfl : bs = bs' := congrArg Prod.fst h
    rw [txDelta_nil]
    cases lookupBal bs i <;> simp
  | cons e rest ih =>
    intro bs bs' h i
    simp only [applyEntriesLoop] at h
    split at h
    · exact absurd (congrArg Prod.snd h) (by simp)
    · rename_i b hlb
      split at h
      · -- CREDIT
        rename_i hty
        have hrec := ih _ _ h i
        rw [hrec, txDelta_cons]
        by_cases hi : e.accountId = i
        · subst hi
          rw [lookupBal_setBal_self _ hlb, hlb, if_pos rfl]
          simp [entryDelta, hty]
          try ring
        · rw [lookupBal_setBal_ne _ _ hi, if_neg hi]
          cases lookupBal bs i with
          | none => rfl
          | some w => simp
      · -- DEBIT
        rename_i hty
        split at h
        · exact absurd (congrArg Prod.snd h) (by simp)
        · rename_i hneg
          have hrec := ih _ _ h i
          rw [hrec, txDelta_cons]
          by_cases hi : e.accountId = i
          · subst hi
            rw [lookupBal_setBal_self _ hlb, hlb, if_pos rfl]
            simp [entryDelta, hty]
            try ring
          · rw [lookupBal_setBal_ne _ _ hi, if_neg hi]
            cases lookupBal bs i with
            | none => rfl
            | some w => simp

/-- The duplicate-reversal guard: as soon as the journal holds a COMPLETED
transaction with the requested original id **and** any REVERSAL-typed
transaction (of any status) whose metadata carries that original id,
`reverseTransaction` fails with the already-been-reversed error. -/
theorem reverseTransaction_already (st : LedgerState) (txId2 : String)
    (d2 : ReversalTransactionDTO) (torig trev : Transaction)
    (hmemo : torig ∈ st.journal)
    (hido : torig.transactionId = d2.originalTransactionId)
    (hstato : torig.status = .COMPLETED)
    (hmemr : trev ∈ st.journal)
    (hrevty : trev.transactionType = .REVERSAL)
    (hrevoid : trev.originalTransactionId = some d2.originalTransactionId) :
    reverseTransaction st txId2 d2 =
      .error (.badRequest "Transaction has already been reversed") := by
  unfold reverseTransaction
  cases hf : st.journal.find? (fun t =>
      t.transactionId == d2.originalTransactionId && t.status == .COMPLETED) with
  | none =>
    exfalso
    have hnone := List.find?_eq_none.mp hf torig hmemo
    simp only [Bool.and_eq_true, beq_iff_eq] at hnone
    exact hnone ⟨hido, hstato⟩
  | some o =>
    simp only [hf]
    cases hf2 : st.journal.find? (fun t =>
        t.originalTransactionId == some d2.originalTransactionId &&
        t.transactionType == .REVERSAL) with
    | none =>
      exfalso
      have hnone := List.find?_eq_none.mp hf2 trev hmemr
      simp only [Bool.and_eq_true, beq_iff_eq] at hnone
      exact hnone ⟨hrevoid, hrevty⟩
    | some r => simp only [hf2]

/-! ## Claim C4 : a reversal restores balances exactly, and is single-use -/

/-- C4.  If the original transaction's entries were applied to the balance
store `bs0` by the balance-application loop (as TRANSFER and the sweep do),
yielding the balances of `st1`, and `reverseTransaction` on `st1` succeeds,
then: the reversal's entries are the side-flipped copy of the original's;
every balance in the post-state equals its value before the original
transaction, with exact (bit-equal) decimal arithmetic; and any second
reversal attempt for the same original transaction fails with the
already-been-reversed error (an aborted session, changing no state). -/
theorem reverseTransaction_restores (msg : String) (bs0 : List (Nat × ℚ))
    (st1 st2 : LedgerState) (txId : String) (d : ReversalTransactionDTO)
    (orig rev : Transaction)
    (hOrig : st1.journal.find? (fun t =>
        t.transactionId == d.originalTransactionId && t.status == .COMPLETED) =
      some orig)
    (hApplied : applyEntriesLoop msg bs0 orig.entries = (st1.balances, none))
    (hOk : reverseTransaction st1 txId d = .ok (st2, rev)) :
    rev.entries = orig.entries.map flipEntry ∧
    (∀ i, lookupBal st2.balances i = lookupBal bs0 i) ∧
    (∀ txId2 (d2 : ReversalTransactionDTO),
      d2.originalTransactionId = d.originalTransactionId →
      reverseTransaction st2 txId2 d2 =
        .error (.badRequest "Transaction has already been reversed")) := by
  have hpred := List.find?_some hOrig
  simp only [Bool.and_eq_true, beq_iff_eq] at hpred
  have hmem := List.mem_of_find?_eq_some hOrig
  simp only [reverseTransaction, hOrig] at hOk
  cases hex : st1.journal.find? (fun t =>
      t.originalTransactionId == some d.originalTransactionId &&
      t.transactionType == .REVERSAL) with
  | some r =>
    rw [hex] at hOk
    exact absurd hOk (by simp)
  | none =>
  simp only [hex] at hOk
  by_cases hv : validEntries (orig.entries.map flipEntry) = true
  · rw [if_neg (by simp [hv])] at hOk
    by_cases hdup : txIdTaken st1 txId = true
    · rw [if_pos hdup] at hOk
      exact absurd hOk (by simp)
    · rw [if_neg hdup] at hOk
      rcases hloop : applyEntriesLoop "Insufficient funds for reversal" st1.balances
          (orig.entries.map flipEntry) with ⟨bs, err⟩
      cases err with
      | some e =>
        rw [hloop] at hOk
        exact absurd hOk (by simp)
      | none =>
        rw [hloop] at hOk
        simp only [] at hOk
        have hinj := Except.ok.inj hOk
        have hst2 : st2 = _ := (congrArg Prod.fst hinj).symm
        have hrev : rev = _ := (congrArg Prod.snd hinj).symm
        subst hst2
        subst hrev
        refine ⟨rfl, ?_, ?_⟩
        · intro i
          have h1 := applyEntriesLoop_lookup msg orig.entries bs0 st1.balances
            hApplied i
          have h2 := applyEntriesLoop_lookup "Insufficient funds for reversal"
            (orig.entries.map flipEntry) st1.balances bs hloop i
          simp only at h2 ⊢
          rw [h2, h1, txDelta_flip]
          cases lookupBal bs0 i with
          | none => rfl
          | some b => simp
        · intro txId2 d2 hid2
          refine reverseTransaction_already _ txId2 d2 orig _
            (List.mem_cons_of_mem _ hmem) (hid2 ▸ hpred.1) hpred.2
            (List.mem_cons_self _ _) rfl ?_
          simp only
          rw [hid2, hpred.1]
  · rw [if_pos (by simp [hv])] at hOk
    exact absurd hOk (by simp)

/-! ## Claim C1 : the pending-transaction sweep does not roll back -/

/-- C1 (divergence exhibit).  Sweeping `fixStSweep` at time 60000 picks up
the one pending transaction, credits account 1 with 10, fails on account
2's DEBIT (5 − 10 < 0), marks the transaction FAILED with `failureReason`
set, commits, and returns `{processed := 0, failed := 1, failedIds :=
["TRF-PEND-1"]}` — but account 1's balance stays at 10 instead of being
rolled back to 0: the whole batch runs in one session whose commit keeps
every balance mutation applied before the per-transaction failure. -/
theorem sweep_keeps_partial_mutations :
    processPendingTransactions fixStSweep 60000 =
      .ok (fixStSweepAfter, ⟨0, 1, ["TRF-PEND-1"]⟩) ∧
    lookupBal fixStSweep.balances 1 = some 0 := by
  constructor
  · decide
  · decide

/-! ## Claim C8 : the ledger path computes with binary floating point -/

/-- C8 (divergence exhibit).  The transaction `fixTxTenth` is exactly
balanced in decimal arithmetic (T1, T2 and T4 all hold), yet the journal
store's balance validator rejects it: the validator sums
`parseFloat`-parsed amounts with binary64 additions, and
`fl(fl(0.1) + fl(0.2)) ≠ fl(0.3)`, so its floating-point reduction is not
zero.  The claim that no ledger-path computation performs binary
floating-point arithmetic is refuted behaviourally. -/
theorem balance_validator_uses_binary_float :
    transactionInsertValid fixTxTenth = false ∧
    TinvT1 fixTxTenth ∧ TinvT2 fixTxTenth ∧ TinvT4 fixTxTenth ∧
    jsEntrySum fixTxTenth.entries ≠ 0 ∧
    sumDebits fixTxTenth.entries = sumCredits fixTxTenth.entries := by
  refine ⟨by decide, ?_, ?_, ?_, by decide, by decide⟩
  · unfold TinvT1; decide
  · unfold TinvT2; decide
  · unfold TinvT4; decide

/-! ## Claim C9 : the account-number validator accepts alphanumerics -/

/-- C9 (counterexample).  `"ACCT-GGGG-0000-0000"` has non-hex alphanumeric
characters in its first group; the claim says the validator accepts exactly
the hex regex, but the source's `[0-9A-Za-z]` classes accept it. -/
theorem validateAccountNumber_hex_cex :
    ¬ (validateAccountNumber "ACCT-GGGG-0000-0000" = true ↔
        specAccountNumberRegex "ACCT-GGGG-0000-0000" = true) := by
  decide

/-- C9 (amended).  The validator accepts `s` iff `s` matches
`^ACCT-[0-9A-Za-z]{4}-[0-9A-Za-z]{4}-[0-9A-Za-z]{4}$`: exactly three
four-character **alphanumeric** (not hex-only) groups after the `ACCT-`
prefix; strings with non-alphanumeric characters in the groups are
rejected. -/
theorem validateAccountNumber_amended (s : String) :
    validateAccountNumber s = true ↔
    ∃ a1 a2 a3 a4 b1 b2 b3 b4 c1 c2 c3 c4 : Char,
      s.data = ['A','C','C','T','-',a1,a2,a3,a4,'-',b1,b2,b3,b4,'-',c1,c2,c3,c4] ∧
      [a1,a2,a3,a4,b1,b2,b3,b4,c1,c2,c3,c4].all isAlphaNumChar = true := by
  constructor
  · intro h
    unfold validateAccountNumber at h
    split at h
    · rename_i a1 a2 a3 a4 b1 b2 b3 b4 c1 c2 c3 c4 heq
      exact ⟨a1, a2, a3, a4, b1, b2, b3, b4, c1, c2, c3, c4, heq, h⟩
    · exact absurd h (by simp)
  · rintro ⟨a1, a2, a3, a4, b1, b2, b3, b4, c1, c2, c3, c4, hdata, hall⟩
    unfold validateAccountNumber
    rw [hdata]
    exact hall

/-! ## Claim C6 : what the journal store validates at insert -/

/-- C6 (counterexample).  `fixTxT4` has two balanced 5/5 entries but a
declared amount of 7: it violates T4, yet `transactionInsertValid` accepts
it — the schema validators never compare the declared amount with the entry
sums. -/
theorem journal_insert_accepts_T4_violation :
    transactionInsertValid fixTxT4 = true ∧ ¬ TinvT4 fixTxT4 := by
  constructor
  · decide
  · unfold TinvT4; decide

/-- C6 (amended).  The journal store's insert validation checks exactly T1
(at least two entries) and a floating-point rendition of T2 (the binary64
debit-minus-credit reduction is zero); T3 (single currency) and T4
(declared amount) are not checked at insert, as the accepted `fixTxT4` —
which violates both T4 and T3 — exhibits. -/
theorem journal_insert_amended :
    (∀ t : Transaction, transactionInsertValid t = true ↔
      (2 ≤ t.entries.length ∧ jsEntrySum t.entries = 0)) ∧
    (transactionInsertValid fixTxT4 = true ∧ ¬ TinvT4 fixTxT4 ∧
      ¬ TinvT3 fixStEmpty fixTxT4) := by
  refine ⟨?_, by decide, ?_, ?_⟩
  · intro t
    simp [transactionInsertValid, validEntries]
  · unfold TinvT4; decide
  · unfold TinvT3; decide

/-! ## Claim C5 : no SYSTEM-account exemption in the reversal check -/

/-- C5 (counterexample).  Reversing the withdrawal `fixWdr` side-flips its
entries, producing a DEBIT of 30 against the WITHDRAWALS **SYSTEM** account
(account 2), which holds 0.  The claim exempts SYSTEM accounts from the
non-negativity check; the code does not: the reversal fails with
`InsufficientFunds{available := 0, required := 30}`. -/
theorem reverseTransaction_system_not_exempt :
    (∃ a ∈ fixStWdr.accounts, a.id = 2 ∧ a.accountType = "SYSTEM") ∧
    lookupBal fixStWdr.balances 2 = some 0 ∧
    reverseTransaction fixStWdr "REV-1" ⟨"admin", "WDR-1", "chargeback"⟩ =
      .error (.insufficientFunds "Insufficient funds for reversal" 0 30) := by
  refine ⟨?_, by decide, by decide⟩
  exact ⟨fixAcctSys, by decide, by decide, by decide⟩

/-! ## Claim C7 : deposits create money in the balance store -/

/-- C7 (counterexample).  A successful COMPLETED deposit of 100 on
`fixStDep` raises the total of all stored balances from 0 to 100: only the
customer's balance is mutated, the system counter-party's DEBIT entry is
journalled but never applied to its balance, so the sum of the balance
changes of this COMPLETED operation is 100, not 0. -/
theorem deposit_changes_total :
    (createDeposit fixStDep "DEP-1" ⟨"u1", "ACCT-0000-0000-0001", 100, "USD"⟩).toOption.map
        (fun r => (totalBal r.1.balances, r.2.status)) = some (100, .COMPLETED) ∧
    totalBal fixStDep.balances = 0 := by
  constructor
  · decide
  · decide

/-! ## Claim C10 : the duplicate-reversal guard ignores status -/

/-- C10.  Whenever the journal holds a COMPLETED transaction with the
requested original id together with **any** REVERSAL-typed transaction —
of any status, FAILED and PENDING included — whose metadata carries that
original id, `reverseTransaction` rejects the call with the
already-been-reversed error (the guard's query has no status filter), and
the aborted session changes no state.  A persisted FAILED reversal hence
permanently blocks further reversals of that original transaction. -/
theorem reverseTransaction_guard_any_status (st : LedgerState) (txId2 : String)
    (d2 : ReversalTransactionDTO) (orig t : Transaction)
    (hOrig : st.journal.find? (fun u =>
        u.transactionId == d2.originalTransactionId && u.status == .COMPLETED) =
      some orig)
    (hmem : t ∈ st.journal)
    (hty : t.transactionType = .REVERSAL)
    (hoid : t.originalTransactionId = some d2.originalTransactionId) :
    reverseTransaction st txId2 d2 =
      .error (.badRequest "Transaction has already been reversed") := by
  have hpred := List.find?_some hOrig
  simp only [Bool.and_eq_true, beq_iff_eq] at hpred
  exact reverseTransaction_already st txId2 d2 orig t
    (List.mem_of_find?_eq_some hOrig) hpred.1 hpred.2 hmem hty
    (by rw [hoid])

/-- Witness for `reverseTransaction_guard_any_status` : with the journal
holding the COMPLETED withdrawal `WDR-1` and a FAILED reversal of it, a new
reversal attempt is rejected as already reversed. -/
theorem reverseTransaction_guard_any_status_witness :
    reverseTransaction fixStFailedRev "REV-9" ⟨"admin", "WDR-1", "retry"⟩ =
      .error (.badRequest "Transaction has already been reversed") :=
  reverseTransaction_guard_any_status fixStFailedRev "REV-9"
    ⟨"admin", "WDR-1", "retry"⟩ fixWdr fixFailedRev
    (by decide) (by decide) (by decide) (by decide)

/-- Witness for `reverseTransaction_restores` : reversing the 40-unit
transfer `TRF-X` on balances `{1 ↦ 60, 2 ↦ 40}` (reached from
`{1 ↦ 100, 2 ↦ 0}` by applying the transfer's entries) restores both
balances to their pre-transfer values. -/
theorem reverseTransaction_restores_witness :
    lookupBal fixStTrfRev.balances 1 = lookupBal [(1, 100), (2, 0)] 1 ∧
    lookupBal fixStTrfRev.balances 2 = lookupBal [(1, 100), (2, 0)] 2 :=
  have h := reverseTransaction_restores "m" [(1, 100), (2, 0)] fixStTrf fixStTrfRev
    "REV-X" ⟨"admin", "TRF-X", "requested"⟩ fixTrf fixRev
    (by decide) (by decide) (by decide)
  ⟨h.2.1 1, h.2.1 2⟩

/-! ## Stepping lemmas for the balance-application loop -/

theorem applyEntriesLoop_cons_none (msg : String) (bs : List (Nat × ℚ))
    (e : Entry) (rest : List Entry) (hlb : lookupBal bs e.accountId = none) :
    applyEntriesLoop msg bs (e :: rest) =
      (bs, some (.notFound ("Account balance not found for account ID: " ++
        toString e.accountId))) := by
  simp only [applyEntriesLoop, hlb]

theorem applyEntriesLoop_cons_credit (msg : String) (bs : List (Nat × ℚ))
    (e : Entry) (rest : List Entry) (b : ℚ)
    (hlb : lookupBal bs e.accountId = some b) (hty : e.entryType = .CREDIT) :
    applyEntriesLoop msg bs (e :: rest) =
      applyEntriesLoop msg (setBal bs e.accountId (b + e.amount)) rest := by
  simp only [applyEntriesLoop, hlb, hty]

theorem applyEntriesLoop_cons_debit_ok (msg : String) (bs : List (Nat × ℚ))
    (e : Entry) (rest : List Entry) (b : ℚ)
    (hlb : lookupBal bs e.accountId = some b) (hty : e.entryType = .DEBIT)
    (hok : ¬ b - e.amount < 0) :
    applyEntriesLoop msg bs (e :: rest) =
      applyEntriesLoop msg (setBal bs e.accountId (b - e.amount)) rest := by
  simp only [applyEntriesLoop, hlb, hty, if_neg hok]

theorem applyEntriesLoop_cons_debit_fail (msg : String) (bs : List (Nat × ℚ))
    (e : Entry) (rest : List Entry) (b : ℚ)
    (hlb : lookupBal bs e.accountId = some b) (hty : e.entryType = .DEBIT)
    (hneg : b - e.amount < 0) :
    applyEntriesLoop msg bs (e :: rest) =
      (bs, some (.insufficientFunds msg b e.amount)) := by
  simp only [applyEntriesLoop, hlb, hty, if_pos hneg]

theorem applyEntriesLoop_nil (msg : String) (bs : List (Nat × ℚ)) :
    applyEntriesLoop msg bs [] = (bs, none) := rfl

theorem applyEntriesLoop_append (msg : String) (l1 l2 : List Entry) :
    ∀ bs : List (Nat × ℚ), (applyEntriesLoop msg bs l1).2 = none →
      applyEntriesLoop msg bs (l1 ++ l2) =
        applyEntriesLoop msg (applyEntriesLoop msg bs l1).1 l2 := by
  induction l1 with
  | nil => intro bs _; rfl
  | cons e rest ih =>
    intro bs h
    cases hlb : lookupBal bs e.accountId with
    | none =>
      rw [applyEntriesLoop_cons_none msg bs e rest hlb] at h
      exact absurd h (by simp)
    | some b =>
      rcases hty : e.entryType with _ | _
      · -- DEBIT
        by_cases hneg : b - e.amount < 0
        · rw [applyEntriesLoop_cons_debit_fail msg bs e rest b hlb hty hneg] at h
          exact absurd h (by simp)
        · rw [applyEntriesLoop_cons_debit_ok msg bs e rest b hlb hty hneg] at h
          rw [List.cons_append,
            applyEntriesLoop_cons_debit_ok msg bs e (rest ++ l2) b hlb hty hneg,
            applyEntriesLoop_cons_debit_ok msg bs e rest b hlb hty hneg]
          exact ih _ h
      · -- CREDIT
        rw [applyEntriesLoop_cons_credit msg bs e rest b hlb hty] at h
        rw [List.cons_append,
          applyEntriesLoop_cons_credit msg bs e (rest ++ l2) b hlb hty,
          applyEntriesLoop_cons_credit msg bs e rest b hlb hty]
        exact ih _ h

/-- Forward direction of the failure characterization: an
`InsufficientFunds` outcome of the loop decomposes into a successful prefix
followed by a DEBIT entry that would drive its account's balance negative. -/
theorem applyEntriesLoop_insufficient_decompose (msg : String) :
    ∀ (es : List Entry) (bs : List (Nat × ℚ)) (av rq : ℚ),
      (applyEntriesLoop msg bs es).2 = some (.insufficientFunds msg av rq) →
      ∃ pre e post, es = pre ++ e :: post ∧
        (applyEntriesLoop msg bs pre).2 = none ∧
        e.entryType = .DEBIT ∧
        lookupBal (applyEntriesLoop msg bs pre).1 e.accountId = some av ∧
        av - e.amount < 0 ∧ rq = e.amount := by
  intro es
  induction es with
  | nil => intro bs av rq h; exact absurd h (by simp [applyEntriesLoop_nil])
  | cons e rest ih =>
    intro bs av rq h
    cases hlb : lookupBal bs e.accountId with
    | none =>
      rw [applyEntriesLoop_cons_none msg bs e rest hlb] at h
      exact absurd h (by simp)
    | some b =>
      rcases hty : e.entryType with _ | _
      · -- DEBIT
        by_cases hneg : b - e.amount < 0
        · rw [applyEntriesLoop_cons_debit_fail msg bs e rest b hlb hty hneg] at h
          have hinj := LedgerErr.insufficientFunds.inj (Option.some.inj h)
          refine ⟨[], e, rest, rfl, rfl, hty, ?_, ?_, hinj.2.2.symm⟩
          · exact hlb.trans (by rw [hinj.2.1])
          · rw [← hinj.2.1]; exact hneg
        · rw [applyEntriesLoop_cons_debit_ok msg bs e rest b hlb hty hneg] at h
          obtain ⟨pre, e', post, hdec, hpre, hty', hlk, hav, hrq⟩ := ih _ av rq h
          refine ⟨e :: pre, e', post, by rw [hdec, List.cons_append], ?_, hty', ?_,
            hav, hrq⟩
          · rw [applyEntriesLoop_cons_debit_ok msg bs e pre b hlb hty hneg]
            exact hpre
          · rw [applyEntriesLoop_cons_debit_ok msg bs e pre b hlb hty hneg]
            exact hlk
      · -- CREDIT
        rw [applyEntriesLoop_cons_credit msg bs e rest b hlb hty] at h
        obtain ⟨pre, e', post, hdec, hpre, hty', hlk, hav, hrq⟩ := ih _ av rq h
        refine ⟨e :: pre, e', post, by rw [hdec, List.cons_append], ?_, hty', ?_,
          hav, hrq⟩
        · rw [applyEntriesLoop_cons_credit msg bs e pre b hlb hty]
          exact hpre
        · rw [applyEntriesLoop_cons_credit msg bs e pre b hlb hty]
          exact hlk

/-! ## Claim C5 : when a reversal fails with InsufficientFunds -/

/-- C5 (amended).  Part one: once the guards pass (original found COMPLETED,
no prior reversal, the flipped entries pass the schema validators, fresh
id), `reverseTransaction` fails with `InsufficientFunds` exactly when the
balance-application loop over the side-flipped entries does.  Part two: the
loop fails with `InsufficientFunds{available := av, required := rq}` exactly
when the entry list splits into a successfully applied prefix followed by a
DEBIT entry — against **any** account, SYSTEM accounts included — whose
account holds `av` after the prefix and would go negative (`av - rq < 0`).
There is no SYSTEM-account exemption. -/
theorem reverseTransaction_insufficient_iff :
    (∀ (st : LedgerState) (txId : String) (d : ReversalTransactionDTO)
        (orig : Transaction) (av rq : ℚ),
      st.journal.find? (fun t => t.transactionId == d.originalTransactionId &&
        t.status == .COMPLETED) = some orig →
      st.journal.find? (fun t =>
        t.originalTransactionId == some d.originalTransactionId &&
        t.transactionType == .REVERSAL) = none →
      validEntries (orig.entries.map flipEntry) = true →
      txIdTaken st txId = false →
      (reverseTransaction st txId d =
          .error (.insufficientFunds "Insufficient funds for reversal" av rq) ↔
        (applyEntriesLoop "Insufficient funds for reversal" st.balances
            (orig.entries.map flipEntry)).2 =
          some (.insufficientFunds "Insufficient funds for reversal" av rq))) ∧
    (∀ (msg : String) (bs : List (Nat × ℚ)) (es : List Entry) (av rq : ℚ),
      (applyEntriesLoop msg bs es).2 = some (.insufficientFunds msg av rq) ↔
      ∃ pre e post, es = pre ++ e :: post ∧
        (applyEntriesLoop msg bs pre).2 = none ∧
        e.entryType = .DEBIT ∧
        lookupBal (applyEntriesLoop msg bs pre).1 e.accountId = some av ∧
        av - e.amount < 0 ∧ rq = e.amount) := by
  constructor
  · intro st txId d orig av rq hOrig hex hval hFresh
    simp only [reverseTransaction, hOrig, hex]
    rw [if_neg (by simp [hval]), if_neg (by simp [hFresh])]
    rcases hloop : applyEntriesLoop "Insufficient funds for reversal" st.balances
        (orig.entries.map flipEntry) with ⟨bs', err⟩
    cases err with
    | none => simp
    | some e => simp
  · intro msg bs es av rq
    constructor
    · exact applyEntriesLoop_insufficient_decompose msg es bs av rq
    · rintro ⟨pre, e, post, rfl, hpre, hty, hlk, hav, rfl⟩
      rw [applyEntriesLoop_append msg pre (e :: post) bs hpre,
        applyEntriesLoop_cons_debit_fail msg _ e post av hlk hty hav]

/-! ## Balance totals under the operations -/

theorem sumDebits_nil : sumDebits [] = 0 := rfl

theorem sumCredits_nil : sumCredits [] = 0 := rfl

theorem sumDebits_cons (e : Entry) (es : List Entry) :
    sumDebits (e :: es) =
      (match e.entryType with | .DEBIT => e.amount | .CREDIT => 0) + sumDebits es :=
  rfl

theorem sumCredits_cons (e : Entry) (es : List Entry) :
    sumCredits (e :: es) =
      (match e.entryType with | .CREDIT => e.amount | .DEBIT => 0) + sumCredits es :=
  rfl

/-- A successful pass of the balance-application loop changes the total of
all balances by exactly credits minus debits of the applied entries. -/
theorem applyEntriesLoop_totalBal (msg : String) :
    ∀ (es : List Entry) (bs bs' : List (Nat × ℚ)),
      (bs.map Prod.fst).Nodup →
      applyEntriesLoop msg bs es = (bs', none) →
      totalBal bs' = totalBal bs + (sumCredits es - sumDebits es) := by
  intro es
  induction es with
  | nil =>
    intro bs bs' _ h
    obtain rfl : bs = bs' := congrArg Prod.fst h
    simp [sumCredits_nil, sumDebits_nil]
  | cons e rest ih =>
    intro bs bs' hnd h
    cases hlb : lookupBal bs e.accountId with
    | none =>
      rw [applyEntriesLoop_cons_none msg bs e rest hlb] at h
      exact absurd (congrArg Prod.snd h) (by simp)
    | some b =>
      rcases hty : e.entryType with _ | _
      · -- DEBIT
        by_cases hneg : b - e.amount < 0
        · rw [applyEntriesLoop_cons_debit_fail msg bs e rest b hlb hty hneg] at h
          exact absurd (congrArg Prod.snd h) (by simp)
        · rw [applyEntriesLoop_cons_debit_ok msg bs e rest b hlb hty hneg] at h
          have hnd' : ((setBal bs e.accountId (b - e.amount)).map Prod.fst).Nodup := by
            rw [setBal_fst]; exact hnd
          have hrec := ih _ _ hnd' h
          rw [hrec, totalBal_setBal hnd hlb, sumDebits_cons, sumCredits_cons, hty]
          simp only
          ring
      · -- CREDIT
        rw [applyEntriesLoop_cons_credit msg bs e rest b hlb hty] at h
        have hnd' : ((setBal bs e.accountId (b + e.amount)).map Prod.fst).Nodup := by
          rw [setBal_fst]; exact hnd
        have hrec := ih _ _ hnd' h
        rw [hrec, totalBal_setBal hnd hlb, sumDebits_cons, sumCredits_cons, hty]
        simp only
        ring

/-- Creating (or finding) a system account keeps the balance keys free of
duplicates, provided the fresh account id is not already a balance key. -/
theorem getSystemAccount_keys_nodup (st : LedgerState) (purpose currency : String)
    (hnd : (st.balances.map Prod.fst).Nodup)
    (hfresh : freshAccountId st ∉ st.balances.map Prod.fst) :
    ((((getSystemAccount st purpose currency).1).balances.map Prod.fst)).Nodup := by
  unfold getSystemAccount
  cases st.accounts.find? (fun a =>
      a.accountType == "SYSTEM" && a.currency == currency && a.purpose == some purpose) with
  | some a => exact hnd
  | none =>
    simp only [List.map_append, List.map_cons, List.map_nil]
    rw [List.nodup_append]
    refine ⟨hnd, List.nodup_singleton _, fun x hx hx' => ?_⟩
    have : x = freshAccountId st := by simpa using hx'
    exact hfresh (this ▸ hx)

/-! ## Claim C7 : which operations conserve the total of balances -/

/-- C7 (amended).  With well-formed balance rows (no duplicate account keys,
and the id a lazily created system account would take not already a key):
TRANSFER and a successful REVERSAL (of a transaction with exactly balanced
entries) conserve the total of all stored balances; but DEPOSIT raises the
total by the amount and WITHDRAWAL and FEE lower it by the amount — these
three mutate only the customer balance, the system counter-party's entry is
journalled but never applied to the system account's balance, so for them
the sum of applied balance changes is `±amount`, not `0`. -/
theorem conservation_amended :
    (∀ (st : LedgerState) (txId : String) (d : TransferTransactionDTO)
        (st' : LedgerState) (tx : Transaction) (sa da : Account),
      createTransfer st txId d = .ok (st', tx) →
      (st.balances.map Prod.fst).Nodup →
      findAccountActive st d.fromAccountNumber = some sa →
      findAccountActive st d.toAccountNumber = some da →
      sa.id ≠ da.id →
      totalBal st'.balances = totalBal st.balances) ∧
    (∀ (st : LedgerState) (txId : String) (d : ReversalTransactionDTO)
        (st' : LedgerState) (tx : Transaction),
      reverseTransaction st txId d = .ok (st', tx) →
      (st.balances.map Prod.fst).Nodup →
      sumDebits tx.entries = sumCredits tx.entries →
      totalBal st'.balances = totalBal st.balances) ∧
    (∀ (st : LedgerState) (txId : String) (d : DepositTransactionDTO)
        (st' : LedgerState) (tx : Transaction),
      createDeposit st txId d = .ok (st', tx) →
      (st.balances.map Prod.fst).Nodup →
      freshAccountId st ∉ st.balances.map Prod.fst →
      totalBal st'.balances = totalBal st.balances + d.amount) ∧
    (∀ (st : LedgerState) (txId : String) (d : WithdrawalTransactionDTO)
        (st' : LedgerState) (tx : Transaction),
      createWithdrawal st txId d = .ok (st', tx) →
      (st.balances.map Prod.fst).Nodup →
      freshAccountId st ∉ st.balances.map Prod.fst →
      totalBal st'.balances = totalBal st.balances - d.amount) ∧
    (∀ (st : LedgerState) (txId : String) (d : FeeTransactionDTO)
        (st' : LedgerState) (tx : Transaction),
      createFee st txId d = .ok (st', tx) →
      (st.balances.map Prod.fst).Nodup →
      freshAccountId st ∉ st.balances.map Prod.fst →
      totalBal st'.balances = totalBal st.balances - d.amount) := by
  refine ⟨?_, ?_, ?_, ?_, ?_⟩
  · -- TRANSFER conserves
    intro st txId d st' tx sa da h hnd hsa hda hid
    by_cases hne : d.fromAccountNumber == d.toAccountNumber
    · rw [createTransfer, if_pos hne] at h
      exact absurd h (by simp)
    · simp only [createTransfer, if_neg hne, hsa, hda] at h
      by_cases hc1 : sa.currency ≠ d.currency
      · rw [if_pos hc1] at h; exact absurd h (by simp)
      rw [if_neg hc1] at h
      by_cases hc2 : da.currency ≠ d.currency
      · rw [if_pos hc2] at h; exact absurd h (by simp)
      rw [if_neg hc2] at h
      by_cases how : sa.userId ≠ d.userId
      · rw [if_pos how] at h; exact absurd h (by simp)
      rw [if_neg how] at h
      cases hbs : lookupBal st.balances sa.id with
      | none => rw [hbs] at h; exact absurd h (by simp)
      | some bs =>
        simp only [hbs] at h
        cases hbd : lookupBal st.balances da.id with
        | none => rw [hbd] at h; exact absurd h (by simp)
        | some bd =>
          simp only [hbd] at h
          by_cases hsuff : bs < d.amount
          · rw [if_pos hsuff] at h; exact absurd h (by simp)
          rw [if_neg hsuff, if_neg (by simp [validEntries_debit_credit])] at h
          by_cases hdup : txIdTaken st txId = true
          · rw [if_pos hdup] at h; exact absurd h (by simp)
          rw [if_neg hdup] at h
          have hst' : st' = _ := (congrArg Prod.fst (Except.ok.inj h)).symm
          subst hst'
          have hnd1 : ((setBal st.balances sa.id (bs - d.amount)).map Prod.fst).Nodup := by
            rw [setBal_fst]; exact hnd
          have hbd1 : lookupBal (setBal st.balances sa.id (bs - d.amount)) da.id =
              some bd := by
            rw [lookupBal_setBal_ne _ _ hid]; exact hbd
          simp only
          rw [totalBal_setBal hnd1 hbd1, totalBal_setBal hnd hbs]
          ring
  · -- REVERSAL of an exactly balanced transaction conserves
    intro st txId d st' tx h hnd hbal
    cases horig : st.journal.find? (fun t =>
        t.transactionId == d.originalTransactionId && t.status == .COMPLETED) with
    | none => rw [reverseTransaction, horig] at h; exact absurd h (by simp)
    | some orig =>
      simp only [reverseTransaction, horig] at h
      cases hex : st.journal.find? (fun t =>
          t.originalTransactionId == some d.originalTransactionId &&
          t.transactionType == .REVERSAL) with
      | some r => rw [hex] at h; exact absurd h (by simp)
      | none =>
        simp only [hex] at h
        by_cases hval : validEntries (orig.entries.map flipEntry) = true
        · rw [if_neg (by simp [hval])] at h
          by_cases hdup : txIdTaken st txId = true
          · rw [if_pos hdup] at h; exact absurd h (by simp)
          rw [if_neg hdup] at h
          rcases hloop : applyEntriesLoop "Insufficient funds for reversal"
              st.balances (orig.entries.map flipEntry) with ⟨bs', err⟩
          cases err with
          | some e => rw [hloop] at h; exact absurd h (by simp)
          | none =>
            rw [hloop] at h
            simp only [] at h
            have hst' : st' = _ := (congrArg Prod.fst (Except.ok.inj h)).symm
            have htx : tx = _ := (congrArg Prod.snd (Except.ok.inj h)).symm
            subst hst'
            have hent : tx.entries = orig.entries.map flipEntry := by rw [htx]
            have htot := applyEntriesLoop_totalBal "Insufficient funds for reversal"
              (orig.entries.map flipEntry) st.balances bs' hnd hloop
            simp only
            rw [htot, ← hent, ← hbal]
            ring
        · rw [if_pos (by simp [hval])] at h
          exact absurd h (by simp)
  · -- DEPOSIT adds the amount to the total
    intro st txId d st' tx h hnd hfresh
    cases hsa : findAccountActive st d.accountNumber with
    | none => rw [createDeposit, hsa] at h; exact absurd h (by simp)
    | some account =>
      simp only [createDeposit, hsa] at h
      by_cases hc : account.currency ≠ d.currency
      · rw [if_pos hc] at h; exact absurd h (by simp)
      rw [if_neg hc] at h
      cases hb : lookupBal st.balances account.id with
      | none => rw [hb] at h; exact absurd h (by simp)
      | some b =>
        simp only [hb] at h
        rw [if_neg (by simp [validEntries_credit_debit])] at h
        by_cases hdup : txIdTaken (getSystemAccount st "DEPOSITS" d.currency).1 txId = true
        · rw [if_pos hdup] at h; exact absurd h (by simp)
        rw [if_neg hdup] at h
        have hst' : st' = _ := (congrArg Prod.fst (Except.ok.inj h)).symm
        subst hst'
        have hndSys := getSystemAccount_keys_nodup st "DEPOSITS" d.currency hnd hfresh
        have hbSys := getSystemAccount_lookupBal "DEPOSITS" d.currency hb
        simp only
        rw [totalBal_setBal hndSys hbSys, getSystemAccount_totalBal]
        ring
  · -- WITHDRAWAL subtracts the amount from the total
    intro st txId d st' tx h hnd hfresh
    cases hsa : findAccountActive st d.accountNumber with
    | none => rw [createWithdrawal, hsa] at h; exact absurd h (by simp)
    | some account =>
      simp only [createWithdrawal, hsa] at h
      by_cases hc : account.currency ≠ d.currency
      · rw [if_pos hc] at h; exact absurd h (by simp)
      rw [if_neg hc] at h
      cases hb : lookupBal st.balances account.id with
      | none => rw [hb] at h; exact absurd h (by simp)
      | some b =>
        simp only [hb] at h
        by_cases hsuff : b < d.amount
        · rw [if_pos hsuff] at h; exact absurd h (by simp)
        rw [if_neg hsuff, if_neg (by simp [validEntries_debit_credit])] at h
        by_cases hdup : txIdTaken (getSystemAccount st "WITHDRAWALS" d.currency).1
            txId = true
        · rw [if_pos hdup] at h; exact absurd h (by simp)
        rw [if_neg hdup] at h
        have hst' : st' = _ := (congrArg Prod.fst (Except.ok.inj h)).symm
        subst hst'
        have hndSys := getSystemAccount_keys_nodup st "WITHDRAWALS" d.currency hnd hfresh
        have hbSys := getSystemAccount_lookupBal "WITHDRAWALS" d.currency hb
        simp only
        rw [totalBal_setBal hndSys hbSys, getSystemAccount_totalBal]
        ring
  · -- FEE subtracts the amount from the total
    intro st txId d st' tx h hnd hfresh
    cases hsa : findAccountActive st d.accountNumber with
    | none => rw [createFee, hsa] at h; exact absurd h (by simp)
    | some account =>
      simp only [createFee, hsa] at h
      by_cases hc : account.currency ≠ d.currency
      · rw [if_pos hc] at h; exact absurd h (by simp)
      rw [if_neg hc] at h
      cases hb : lookupBal st.balances account.id with
      | none => rw [hb] at h; exact absurd h (by simp)
      | some b =>
        simp only [hb] at h
        by_cases hsuff : b < d.amount
        · rw [if_pos hsuff] at h; exact absurd h (by simp)
        rw [if_neg hsuff, if_neg (by simp [validEntries_debit_credit])] at h
        by_cases hdup : txIdTaken (getSystemAccount st "FEES" d.currency).1 txId = true
        · rw [if_pos hdup] at h; exact absurd h (by simp)
        rw [if_neg hdup] at h
        have hst' : st' = _ := (congrArg Prod.fst (Except.ok.inj h)).symm
        subst hst'
        have hndSys := getSystemAccount_keys_nodup st "FEES" d.currency hnd hfresh
        have hbSys := getSystemAccount_lookupBal "FEES" d.currency hb
        simp only
        rw [totalBal_setBal hndSys hbSys, getSystemAccount_totalBal]
        ring

end BankLedger
